import Mathlib

/-!
Verification of the conversation-to-diagram pipeline of the
architecture-diagrams backend.

The Lean definitions below are a shallow embedding of the Python sources:

* `backend/diagram_generator/plantuml.py`   (PlantUML generation + fallback)
* `backend/diagram_generator/drawio.py`     (Draw.io generation + fallback)
* `backend/ai/conversation_analyzer.py`     (message classification)
* `backend/ai/diagram_modifier.py`          (per-format modify calls)
* `backend/api/services/conversation_service.py`
* `backend/api/services/diagram_service.py`
* `backend/api/models/{conversation,schemas}.py`
* `backend/config.py`

External collaborators (the language-model calls, `json.loads`,
`xml.etree.ElementTree`) are modelled explicitly: LLM invocations appear as
`Except String String` parameters (the `.error` case is the call raising an
exception, the `.ok` case is `response.content`); `json.loads` and the
ElementTree serializer/parser are implemented as executable Lean functions
mirroring their documented behaviour on the fragment of JSON/XML this code
produces.  Wall-clock timestamps are modelled as integers measured in
minutes; `datetime.utcnow()` becomes an explicit `now` argument.
-/

/- ===================================================================
   Section A: small models of Python primitives used by the sources
   =================================================================== -/

/-- Python `str.strip()`: remove whitespace from both ends. -/
def pyStrip (s : String) : String :=
  ⟨((s.data.dropWhile Char.isWhitespace).reverse.dropWhile Char.isWhitespace).reverse⟩

/-- Python truthiness of an optional string (`None` and `""` are falsy). -/
def pyTruthy : Option String → Bool
  | none => false
  | some s => s ≠ ""

/-- Python `x or y` for an optional string `x` and default `y`. -/
def pyOr (x : Option String) (y : String) : String :=
  match x with
  | none => y
  | some s => if s = "" then y else s

/-- Python `s.replace(a, b)` for a single-character pattern (the only form
the sources use: `name.replace(" ", "_")`). -/
def pyReplace1 (s : String) (a b : Char) : String :=
  ⟨s.data.map (fun c => if c = a then b else c)⟩

/-- Python `"\n".join(lines)`. -/
def joinLines : List String → String
  | [] => ""
  | [a] => a
  | a :: b :: rest => a ++ "\n" ++ joinLines (b :: rest)

/-- Python `pat in s` (substring containment). -/
def containsSub (s pat : String) : Bool :=
  decide (pat.data <:+: s.data)

/-- The code-fence cleanup shared by the generators and modifiers:
`if text.startswith("```"): text = "\n".join(text.split("\n")[1:-1])`. -/
def stripCodeFence (s : String) : String :=
  if s.startsWith "```" then joinLines (((s.splitOn "\n").drop 1).dropLast) else s

/-- Python `dict` built from an association list (later insertions win),
queried by key: `d[k]` / `k in d`. -/
def pyDictGet {α : Type} (m : List (String × α)) (k : String) : Option α :=
  m.reverse.lookup k

/- ===================================================================
   Section B: the architecture data model (backend/api/models/schemas.py)
   =================================================================== -/

/-- Model of `ArchitectureEntity` of schemas.py: one architectural component. -/
structure ArchitectureEntity where
  type : String
  name : String
  technologies : List String
deriving DecidableEq

/-- Model of `ArchitectureRelationship` of schemas.py. -/
structure ArchitectureRelationship where
  source : String
  target : String
  relationship_type : String
  label : Option String
deriving DecidableEq

/-- Model of `ArchitectureExtraction` of schemas.py: the contract between extraction
and diagram generation. -/
structure ArchitectureExtraction where
  components : List ArchitectureEntity
  relationships : List ArchitectureRelationship
  context : String
deriving DecidableEq

/- ===================================================================
   Section C: the PlantUML generator (backend/diagram_generator/plantuml.py)
   =================================================================== -/

namespace PlantUMLGenerator

/-- The `comp_type` keyword chosen in `_generate_fallback_diagram`. -/
def compTypeKeyword (t : String) : String :=
  if t = "database" then "database"
  else if t = "queue" then "queue"
  else "component"

/-- One component line of the PlantUML fallback:
`f'{comp_type} "{comp.name}" as {comp.name.replace(" ", "_")}{tech_label}'`. -/
def compLine (comp : ArchitectureEntity) : String :=
  let tech_label :=
    match comp.technologies with
    | [] => ""
    | t :: _ => " <<" ++ t ++ ">>"
  compTypeKeyword comp.type ++ " \"" ++ comp.name ++ "\" as "
    ++ pyReplace1 comp.name ' ' '_' ++ tech_label

/-- One relationship line of the PlantUML fallback:
`f"{source} --> {target}{label}"`; note that the source code emits this for
EVERY relationship, without checking that `source`/`target` name components. -/
def relLine (rel : ArchitectureRelationship) : String :=
  let label :=
    match rel.label with
    | none => ""
    | some l => if l = "" then "" else " : " ++ l
  pyReplace1 rel.source ' ' '_' ++ " --> " ++ pyReplace1 rel.target ' ' '_' ++ label

/-- The `lines` list accumulated by `_generate_fallback_diagram`. -/
def generate_fallback_lines (architecture : ArchitectureExtraction) : List String :=
  ["@startuml", "skinparam componentStyle rectangle", ""]
    ++ architecture.components.map compLine
    ++ [""]
    ++ architecture.relationships.map relLine
    ++ ["@enduml"]

/-- Model of `PlantUMLGenerator._generate_fallback_diagram`. -/
def generate_fallback_diagram (architecture : ArchitectureExtraction) : String :=
  joinLines (generate_fallback_lines architecture)

/-- Model of `PlantUMLGenerator.validate_plantuml`. -/
def validate_plantuml (code : String) : Bool :=
  if pyStrip code = "" then false
  else if !(containsSub code "@startuml") || !(containsSub code "@enduml") then false
  else true

/-- Model of `PlantUMLGenerator.generate`: primary LLM path with code-fence cleanup and
marker enforcement; any exception from the LLM call falls back to the
deterministic diagram.  `llm` is the outcome of `self.llm.ainvoke(prompt)`. -/
def generate (architecture : ArchitectureExtraction)
    (llm : Except String String) : String :=
  match llm with
  | .error _ => generate_fallback_diagram architecture
  | .ok content =>
    let code := pyStrip content
    let code := stripCodeFence code
    let code := if code.startsWith "@startuml" then code else "@startuml\n" ++ code
    let code := if (pyStrip code).endsWith "@enduml" then code else code ++ "\n@enduml"
    code

end PlantUMLGenerator

/- ===================================================================
   Section D: a model of xml.etree.ElementTree on the fragment the
   Draw.io generator produces (elements with attributes, no text nodes)
   =================================================================== -/

/-- An ElementTree element: tag, attributes (in insertion order), children. -/
inductive XmlTree where
  | node (tag : String) (attrs : List (String × String)) (children : List XmlTree)

namespace Xml

/-- ElementTree's `_escape_attrib`: escaping applied to attribute values by
`ET.tostring`. -/
def escChar (c : Char) : List Char :=
  if c = '&' then "&amp;".data
  else if c = '<' then "&lt;".data
  else if c = '>' then "&gt;".data
  else if c = '"' then "&quot;".data
  else if c = '\r' then "&#13;".data
  else if c = '\n' then "&#10;".data
  else if c = '\t' then "&#09;".data
  else [c]

def escAttrL : List Char → List Char
  | [] => []
  | c :: rest => escChar c ++ escAttrL rest

/-- Serialized attribute list: ` key="escaped value"` for each attribute. -/
def serAttrsL : List (String × String) → List Char
  | [] => []
  | (k, v) :: rest =>
    ' ' :: (k.data ++ '=' :: '"' :: (escAttrL v.data ++ '"' :: serAttrsL rest))

mutual

/-- Serialization of one element, as `ET.tostring` renders it
(`short_empty_elements=True`): `<tag attrs />` or `<tag attrs>…</tag>`. -/
def serElemL : XmlTree → List Char
  | .node tag attrs [] =>
    '<' :: (tag.data ++ serAttrsL attrs ++ [' ', '/', '>'])
  | .node tag attrs (c :: cs) =>
    '<' :: (tag.data ++ serAttrsL attrs
      ++ '>' :: (serSeqL (c :: cs) ++ '<' :: '/' :: (tag.data ++ ['>'])))

/-- Serialization of a child sequence. -/
def serSeqL : List XmlTree → List Char
  | [] => []
  | c :: cs => serElemL c ++ serSeqL cs

end

/-- Model of `ET.tostring(root, encoding="unicode", method="xml")`. -/
def tostring (t : XmlTree) : String := ⟨serElemL t⟩

/-- Characters allowed in tag and attribute names by the parser model. -/
def isNameChar (c : Char) : Bool :=
  c.isAlpha || c.isDigit || c = '_' || c = '-' || c = '.' || c = ':'

/-- The XML 1.0 `Char` production enforced by expat: `#x9 | #xA | #xD |
[#x20-#xD7FF] | [#xE000-#xFFFD] | [#x10000-#x10FFFF]`.  C0 control
characters other than tab, newline and carriage return (and the
non-characters `#xFFFE`/`#xFFFF`) make `ET.fromstring` raise `ParseError`
even though `ET.tostring`'s `_escape_attrib` passes them through raw. -/
def validXmlChar (c : Char) : Bool :=
  decide (c.toNat = 9 ∨ c.toNat = 10 ∨ c.toNat = 13
    ∨ (32 ≤ c.toNat ∧ c.toNat ≤ 55295)
    ∨ (57344 ≤ c.toNat ∧ c.toNat ≤ 65533)
    ∨ (65536 ≤ c.toNat ∧ c.toNat ≤ 1114111))

/-- Well-formedness of an attribute value as the XML parser sees it: no raw
`<`, `&` or `"`; entities limited to the ones the serializer emits; every
literal character a valid XML 1.0 character (expat rejects the rest). -/
def okAttrValue : List Char → Bool
  | [] => true
  | c :: rest =>
    if c = '"' ∨ c = '<' then false
    else if c = '&' then
      match rest with
      | 'a' :: 'm' :: 'p' :: ';' :: r => okAttrValue r
      | 'l' :: 't' :: ';' :: r => okAttrValue r
      | 'g' :: 't' :: ';' :: r => okAttrValue r
      | 'q' :: 'u' :: 'o' :: 't' :: ';' :: r => okAttrValue r
      | '#' :: '1' :: '3' :: ';' :: r => okAttrValue r
      | '#' :: '1' :: '0' :: ';' :: r => okAttrValue r
      | '#' :: '0' :: '9' :: ';' :: r => okAttrValue r
      | _ => false
    else if validXmlChar c then okAttrValue rest else false

/-- Parser model, attribute section: consumes ` key="value"` pairs after the
tag name, ending at `>` (open tag, result `false`) or `/>` (self-closing,
result `true`); returns the remaining input. -/
def chkAttrs : Nat → List Char → Option (Bool × List Char)
  | 0, _ => none
  | _ + 1, [] => none
  | f + 1, c :: r =>
    if c = '>' then some (false, r)
    else if c = '/' then
      match r with
      | '>' :: r2 => some (true, r2)
      | _ => none
    else if c = ' ' then
      let key := r.takeWhile isNameChar
      let r1 := r.dropWhile isNameChar
      if key.isEmpty then
        match r with
        | '/' :: '>' :: r3 => some (true, r3)
        | _ => none
      else
        match r1 with
        | '=' :: '"' :: r2 =>
          let v := r2.takeWhile (fun c => !(c = '"'))
          let r3 := r2.dropWhile (fun c => !(c = '"'))
          if okAttrValue v then
            match r3 with
            | '"' :: r4 => chkAttrs f r4
            | _ => none
          else none
        | _ => none
    else none

mutual

/-- Parser model, one element: `<name attrs />` or
`<name attrs>children</name>` with a matching close tag. -/
def chkElem : Nat → List Char → Option (List Char)
  | 0, _ => none
  | _ + 1, [] => none
  | f + 1, c :: r =>
    if c = '<' then
      let name := r.takeWhile isNameChar
      let r1 := r.dropWhile isNameChar
      if name.isEmpty then none
      else
        match chkAttrs f r1 with
        | some (true, r2) => some r2
        | some (false, r2) =>
          match chkSeq f r2 with
          | some r3 =>
            match r3 with
            | '<' :: '/' :: r4 =>
              if name.isPrefixOf r4 then
                match r4.drop name.length with
                | '>' :: r5 => some r5
                | _ => none
              else none
            | _ => none
          | none => none
        | none => none
    else none

/-- Parser model, a sequence of sibling elements, stopped (without consuming)
at a closing tag `</…`. -/
def chkSeq : Nat → List Char → Option (List Char)
  | 0, _ => none
  | f + 1, c :: c2 :: r =>
    if c = '<' then
      if c2 = '/' then some (c :: c2 :: r)
      else
        match chkElem f (c :: c2 :: r) with
        | some r2 => chkSeq f r2
        | none => none
    else none
  | _ + 1, _ => none

end

/-- Model of `ET.fromstring(s)` succeeding: the parser model accepts the whole input
as a single element. -/
def fromstring_ok (s : String) : Bool :=
  match chkElem (s.length + 1) s.data with
  | some [] => true
  | _ => false

/-- Names the serializer may use so that its output stays parseable (tags
and attribute keys); attribute values get escaped, but escaping does not
touch invalid XML characters, so values must consist of valid XML
characters (see `goodTree`). -/
def okName (s : String) : Bool :=
  !s.data.isEmpty && s.data.all isNameChar

mutual

def goodTree : XmlTree → Bool
  | .node tag attrs cs =>
    okName tag
      && attrs.all (fun a => okName a.1 && a.2.data.all validXmlChar)
      && goodSeq cs

def goodSeq : List XmlTree → Bool
  | [] => true
  | c :: cs => goodTree c && goodSeq cs

end

mutual

/-- Fuel sufficient for `chkElem` on the serialization of a tree. -/
def fuelElem : XmlTree → Nat
  | .node _ attrs cs => 1 + max (attrs.length + 1) (fuelSeq cs)

def fuelSeq : List XmlTree → Nat
  | [] => 1
  | c :: cs => 1 + max (fuelElem c) (fuelSeq cs)

end

mutual

/-- Size measure used for the mutual induction over trees and forests. -/
def sizeT : XmlTree → Nat
  | .node _ _ cs => 1 + sizeS cs

def sizeS : List XmlTree → Nat
  | [] => 0
  | c :: cs => 1 + sizeT c + sizeS cs

end

end Xml

/- ===================================================================
   Section E: the Draw.io generator (backend/diagram_generator/drawio.py)
   =================================================================== -/

namespace DrawioGenerator

/-- Style string chosen by component `type` in `_generate_fallback_diagram`. -/
def compStyle (t : String) : String :=
  if t = "database" then
    "shape=cylinder3;whiteSpace=wrap;html=1;boundedLbl=1;backgroundOutline=1;size=15;fillColor=#dae8fc;strokeColor=#6c8ebf;"
  else if t = "queue" then
    "shape=hexagon;perimeter=hexagonPerimeter2;whiteSpace=wrap;html=1;fixedSize=1;fillColor=#fff2cc;strokeColor=#d6b656;"
  else
    "rounded=1;whiteSpace=wrap;html=1;fillColor=#d5e8d4;strokeColor=#82b366;"

/-- Grid x-coordinate of component `idx`:
`x = x_offset + (idx % 3) * spacing` with `x_offset = 100`, `spacing = 200`. -/
def compX (idx : Nat) : Nat := 100 + (idx % 3) * 200

/-- Grid y-coordinate of component `idx`:
`y = y_offset + (idx // 3) * spacing` with `y_offset = 100`, `spacing = 200`. -/
def compY (idx : Nat) : Nat := 100 + (idx / 3) * 200

/-- The cell id `f"comp_{idx + 2}"` assigned to component `idx`. -/
def compCellId (idx : Nat) : String := "comp_" ++ toString (idx + 2)

/-- The `mxCell` element (with its `mxGeometry` child) built for component
`idx` by `_generate_fallback_diagram`: `width = 120`, `height = 60`. -/
def compCell (idx : Nat) (comp : ArchitectureEntity) : XmlTree :=
  .node "mxCell"
    [("id", compCellId idx), ("value", comp.name), ("style", compStyle comp.type),
     ("vertex", "1"), ("parent", "1")]
    [.node "mxGeometry"
      [("x", toString (compX idx)), ("y", toString (compY idx)),
       ("width", "120"), ("height", "60"), ("as", "geometry")] []]

/-- The `component_map` dict: `component_map[comp.name] = cell_id` in
enumeration order (a duplicate name overwrites the earlier entry). -/
def componentMap (components : List ArchitectureEntity) : List (String × String) :=
  components.enum.map (fun p => (p.2.name, compCellId p.1))

/-- Style of every fallback edge. -/
def edgeStyle : String :=
  "edgeStyle=orthogonalEdgeStyle;rounded=0;orthogonalLoop=1;jettySize=auto;html=1;"

/-- The edge-building loop of `_generate_fallback_diagram`: an `mxCell` edge
is emitted only when `rel.source in component_map and rel.target in
component_map`; `edge_id` increments only for emitted edges. -/
def edgeCells (cmap : List (String × String)) :
    List ArchitectureRelationship → Nat → List XmlTree
  | [], _ => []
  | rel :: rest, edge_id =>
    match pyDictGet cmap rel.source, pyDictGet cmap rel.target with
    | some s, some t =>
      .node "mxCell"
        [("id", "edge_" ++ toString edge_id),
         ("value", pyOr rel.label rel.relationship_type),
         ("style", edgeStyle), ("edge", "1"), ("parent", "1"),
         ("source", s), ("target", t)]
        [.node "mxGeometry" [("relative", "1"), ("as", "geometry")] []]
        :: edgeCells cmap rest (edge_id + 1)
    | _, _ => edgeCells cmap rest edge_id

/-- The element tree built by `DrawioGenerator._generate_fallback_diagram`. -/
def generate_fallback_tree (architecture : ArchitectureExtraction) : XmlTree :=
  .node "mxfile"
    [("host", "app.diagrams.net"), ("modified", "2024-01-01T00:00:00.000Z"),
     ("agent", "AI"), ("version", "22.0.0")]
    [.node "diagram" [("name", "Architecture"), ("id", "diagram1")]
      [.node "mxGraphModel"
        [("dx", "1422"), ("dy", "794"), ("grid", "1"), ("gridSize", "10"),
         ("guides", "1")]
        [.node "root" []
          ([.node "mxCell" [("id", "0")] [],
            .node "mxCell" [("id", "1"), ("parent", "0")] []]
            ++ architecture.components.enum.map (fun p => compCell p.1 p.2)
            ++ edgeCells (componentMap architecture.components)
                architecture.relationships
                (architecture.components.length + 2))]]]

/-- Model of `DrawioGenerator._generate_fallback_diagram`: the serialized tree. -/
def generate_fallback_diagram (architecture : ArchitectureExtraction) : String :=
  Xml.tostring (generate_fallback_tree architecture)

/-- Model of `DrawioGenerator.validate_drawio_xml`: `ET.fromstring` succeeds. -/
def validate_drawio_xml (xml_str : String) : Bool :=
  Xml.fromstring_ok xml_str

/-- Model of `DrawioGenerator.generate`: primary LLM path with code-fence cleanup and
a structural validity check; LLM failure or invalid XML falls back to the
deterministic diagram. -/
def generate (architecture : ArchitectureExtraction)
    (llm : Except String String) : String :=
  match llm with
  | .error _ => generate_fallback_diagram architecture
  | .ok content =>
    let xml := stripCodeFence (pyStrip content)
    if validate_drawio_xml xml then xml
    else generate_fallback_diagram architecture

/-- A string made only of valid XML 1.0 characters: the condition under
which the escaped attribute values of the fallback tree survive the
`ET.fromstring` well-formedness check. -/
def xmlSafe (s : String) : Bool :=
  s.data.all Xml.validXmlChar

/-- All the architecture-supplied strings that reach Draw.io fallback
attribute values are made of valid XML characters: component names (the
`value` attribute of a component cell) and relationship labels/types (the
`value` attribute of an edge cell). -/
def xmlSafeArch (architecture : ArchitectureExtraction) : Bool :=
  architecture.components.all (fun comp => xmlSafe comp.name)
    && architecture.relationships.all
        (fun rel => xmlSafe (pyOr rel.label rel.relationship_type))

end DrawioGenerator

/- ===================================================================
   Section F: a model of json.loads and the conversation analyzer
   (backend/ai/conversation_analyzer.py)
   =================================================================== -/

/-- A JSON value, as produced by `json.loads` (numbers as rationals). -/
inductive Json where
  | null
  | jbool (b : Bool)
  | jnum (q : ℚ)
  | jstr (s : String)
  | jarr (xs : List Json)
  | jobj (fields : List (String × Json))

namespace Json

def jsonWs (c : Char) : Bool :=
  c = ' ' || c = '\n' || c = '\t' || c = '\r'

def skipWs (l : List Char) : List Char := l.dropWhile jsonWs

/-- Value of one hexadecimal digit, as used by `\uXXXX` escapes. -/
def hexDigitVal (c : Char) : Option Nat :=
  if '0' ≤ c ∧ c ≤ '9' then some (c.toNat - 48)
  else if 'a' ≤ c ∧ c ≤ 'f' then some (c.toNat - 87)
  else if 'A' ≤ c ∧ c ≤ 'F' then some (c.toNat - 55)
  else none

/-- JSON string body after the opening quote: returns the decoded
characters and the input following the closing quote.  As in Python's
strict decoder, a raw control character is rejected.  A `\uXXXX` escape
decodes to its scalar value, a high/low surrogate escape pair combines
into one character; an unpaired surrogate escape (which Python turns into
a lone surrogate in the `str`) has no counterpart in a `Char`-based model
and is left outside it. -/
def parseJStr : List Char → Except String (List Char × List Char)
  | [] => .error "Unterminated string"
  | '"' :: rest => .ok ([], rest)
  | '\\' :: 'u' :: a :: b :: c :: d :: rest =>
    (match hexDigitVal a, hexDigitVal b, hexDigitVal c, hexDigitVal d with
    | some x1, some x2, some x3, some x4 =>
      let n := ((x1 * 16 + x2) * 16 + x3) * 16 + x4
      if n < 55296 ∨ 57344 ≤ n then
        match parseJStr rest with
        | .ok (cs, r) => .ok (Char.ofNat n :: cs, r)
        | .error e => .error e
      else if n < 56320 then
        match rest with
        | '\\' :: 'u' :: a2 :: b2 :: c2 :: d2 :: rest2 =>
          (match hexDigitVal a2, hexDigitVal b2, hexDigitVal c2, hexDigitVal d2 with
          | some y1, some y2, some y3, some y4 =>
            let m := ((y1 * 16 + y2) * 16 + y3) * 16 + y4
            if 56320 ≤ m ∧ m ≤ 57343 then
              match parseJStr rest2 with
              | .ok (cs, r) =>
                .ok (Char.ofNat (65536 + (n - 55296) * 1024 + (m - 56320)) :: cs, r)
              | .error e => .error e
            else .error "Unpaired surrogate, outside this model"
          | _, _, _, _ => .error "Unpaired surrogate, outside this model")
        | _ => .error "Unpaired surrogate, outside this model"
      else .error "Unpaired surrogate, outside this model"
    | _, _, _, _ => .error "Invalid hex escape")
  | '\\' :: c :: rest =>
    let dec :=
      if c = '"' then some '"'
      else if c = '\\' then some '\\'
      else if c = '/' then some '/'
      else if c = 'n' then some '\n'
      else if c = 't' then some '\t'
      else if c = 'r' then some '\r'
      else if c = 'b' then some (Char.ofNat 8)
      else if c = 'f' then some (Char.ofNat 12)
      else none
    match dec with
    | some d =>
      match parseJStr rest with
      | .ok (cs, r) => .ok (d :: cs, r)
      | .error e => .error e
    | none => .error "Invalid escape"
  | '\\' :: [] => .error "Unterminated string"
  | c :: rest =>
    if c.toNat < 32 then .error "Invalid control character"
    else
      match parseJStr rest with
      | .ok (cs, r) => .ok (c :: cs, r)
      | .error e => .error e

def digitsToNat (l : List Char) : Nat :=
  l.foldl (fun a c => a * 10 + (c.toNat - 48)) 0

/-- JSON number, per Python's `NUMBER_RE`
`-?(0|[1-9]\d*)(\.\d+)?([eE][+-]?\d+)?`: the regex consumes the longest
match and leaves the rest (so `01` parses as `0` with `1` left over, and a
dot or exponent marker without digits is not consumed).  The non-finite
constants `NaN`/`Infinity`/`-Infinity` that `json.loads` additionally
accepts have no counterpart in a rational-number model and are left
outside it. -/
def parseJNum (l : List Char) : Except String (ℚ × List Char) :=
  let (neg, l1) := match l with
    | '-' :: r => (true, r)
    | _ => (false, l)
  let ds0 := l1.takeWhile Char.isDigit
  let (ds, r2) := match ds0 with
    | '0' :: _ :: _ => (['0'], l1.drop 1)
    | _ => (ds0, l1.dropWhile Char.isDigit)
  if ds.isEmpty then .error "Expecting value"
  else
    let n : ℚ := (digitsToNat ds : ℕ)
    let (mant, r4) := match r2 with
      | '.' :: r3 =>
        let fs := r3.takeWhile Char.isDigit
        if fs.isEmpty then (n, r2)
        else (n + (digitsToNat fs : ℚ) / ((10 : ℚ) ^ fs.length),
          r3.dropWhile Char.isDigit)
      | _ => (n, r2)
    let (q, r7) := match r4 with
      | e :: r5 =>
        if e = 'e' ∨ e = 'E' then
          let (eneg, r6) := match r5 with
            | '+' :: r => (false, r)
            | '-' :: r => (true, r)
            | _ => (false, r5)
          let es := r6.takeWhile Char.isDigit
          if es.isEmpty then (mant, r4)
          else if eneg then
            (mant / ((10 : ℚ) ^ digitsToNat es), r6.dropWhile Char.isDigit)
          else
            (mant * ((10 : ℚ) ^ digitsToNat es), r6.dropWhile Char.isDigit)
        else (mant, r4)
      | [] => (mant, r4)
    .ok (if neg then -q else q, r7)

mutual

/-- One JSON value (fuel-bounded recursive descent). -/
def parseValue : Nat → List Char → Except String (Json × List Char)
  | 0, _ => .error "Out of fuel"
  | f + 1, l =>
    match skipWs l with
    | 't' :: 'r' :: 'u' :: 'e' :: r => .ok (.jbool true, r)
    | 'f' :: 'a' :: 'l' :: 's' :: 'e' :: r => .ok (.jbool false, r)
    | 'n' :: 'u' :: 'l' :: 'l' :: r => .ok (.null, r)
    | '"' :: r =>
      match parseJStr r with
      | .ok (cs, r2) => .ok (.jstr ⟨cs⟩, r2)
      | .error e => .error e
    | '[' :: r => parseArrItems f r true
    | '\x7b' :: r => parseObjItems f r true
    | l2 =>
      match parseJNum l2 with
      | .ok (q, r) => .ok (.jnum q, r)
      | .error e => .error e

/-- Items of a JSON array; `first` is true before the first item. -/
def parseArrItems : Nat → List Char → Bool → Except String (Json × List Char)
  | 0, _, _ => .error "Out of fuel"
  | f + 1, l, first =>
    match skipWs l with
    | ']' :: r => if first then .ok (.jarr [], r) else .error "Expecting value"
    | l2 =>
      match parseValue f l2 with
      | .error e => .error e
      | .ok (x, r) =>
        match skipWs r with
        | ',' :: r2 =>
          match parseArrItems f r2 false with
          | .ok (.jarr xs, r3) => .ok (.jarr (x :: xs), r3)
          | .ok _ => .error "Internal"
          | .error e => .error e
        | ']' :: r2 => .ok (.jarr [x], r2)
        | _ => .error "Expecting comma"

/-- Members of a JSON object; `first` is true before the first member. -/
def parseObjItems : Nat → List Char → Bool → Except String (Json × List Char)
  | 0, _, _ => .error "Out of fuel"
  | f + 1, l, first =>
    match skipWs l with
    | '\x7d' :: r => if first then .ok (.jobj [], r) else .error "Expecting key"
    | '"' :: r =>
      match parseJStr r with
      | .error e => .error e
      | .ok (k, r1) =>
        match skipWs r1 with
        | ':' :: r2 =>
          match parseValue f r2 with
          | .error e => .error e
          | .ok (v, r3) =>
            match skipWs r3 with
            | ',' :: r4 =>
              match parseObjItems f r4 false with
              | .ok (.jobj fs, r5) => .ok (.jobj ((⟨k⟩, v) :: fs), r5)
              | .ok _ => .error "Internal"
              | .error e => .error e
            | '\x7d' :: r4 => .ok (.jobj [(⟨k⟩, v)], r4)
            | _ => .error "Expecting comma"
        | _ => .error "Expecting colon"
    | _ => .error "Expecting property name"

end

end Json

/-- Model of `json.loads`: parse one JSON value and require only whitespace
after it; any failure is the `json.JSONDecodeError` exception. -/
def json_loads (s : String) : Except String Json :=
  match Json.parseValue (s.length + 1) s.data with
  | .ok (j, rest) =>
    if Json.skipWs rest = [] then .ok j else .error "Extra data"
  | .error e => .error e

/-- Model of `TechnicalAnalysis` of schemas.py (`confidence_score: float` carries no
range constraint). -/
structure TechnicalAnalysis where
  is_technical : Bool
  confidence_score : ℚ
  entities : List String
  reasoning : String
deriving DecidableEq

namespace ConversationAnalyzer

/-- pydantic v2 lax validation of a string against a `float` field:
pydantic-core parses the trimmed string as a float, so numeric strings
coerce (`"2"` is stored as `2.0`).  Grammar: optional sign, digits with
optional fraction, optional exponent.  The non-finite spellings (`inf`,
`nan`, …) that also coerce have no counterpart in a rational-number model
and are left outside it. -/
def pyFloatOfString (s : String) : Option ℚ :=
  let l := ((s.data.dropWhile Char.isWhitespace).reverse.dropWhile
    Char.isWhitespace).reverse
  let (neg, l1) := match l with
    | '-' :: r => (true, r)
    | '+' :: r => (false, r)
    | _ => (false, l)
  let ds := l1.takeWhile Char.isDigit
  let r2 := l1.dropWhile Char.isDigit
  let mantOpt : Option (ℚ × List Char) := match r2 with
    | '.' :: r3 =>
      let fs := r3.takeWhile Char.isDigit
      if ds.isEmpty && fs.isEmpty then none
      else some ((Json.digitsToNat ds : ℚ)
          + (Json.digitsToNat fs : ℚ) / ((10 : ℚ) ^ fs.length),
        r3.dropWhile Char.isDigit)
    | _ => if ds.isEmpty then none else some ((Json.digitsToNat ds : ℚ), r2)
  match mantOpt with
  | none => none
  | some (m, r4) =>
    let finOpt : Option ℚ := match r4 with
      | [] => some m
      | e :: r5 =>
        if e = 'e' ∨ e = 'E' then
          let (eneg, r6) := match r5 with
            | '+' :: r => (false, r)
            | '-' :: r => (true, r)
            | _ => (false, r5)
          let es := r6.takeWhile Char.isDigit
          if es.isEmpty then none
          else if !(r6.dropWhile Char.isDigit).isEmpty then none
          else if eneg then some (m / ((10 : ℚ) ^ Json.digitsToNat es))
          else some (m * ((10 : ℚ) ^ Json.digitsToNat es))
        else none
    match finOpt with
    | some q => some (if neg then -q else q)
    | none => none

/-- pydantic v2 lax validation of the `is_technical: bool` field: a bool
is accepted, the numbers 0/1 and the usual boolean string spellings
coerce; anything else raises `ValidationError`, which the surrounding
`except` turns into the fail-closed result. -/
def asBool : Json → Except String Bool
  | .jbool b => .ok b
  | .jnum q =>
    if q = 0 then .ok false
    else if q = 1 then .ok true
    else .error "validation error for is_technical"
  | .jstr s =>
    let t := s.toLower
    if t = "true" ∨ t = "t" ∨ t = "yes" ∨ t = "y" ∨ t = "on" ∨ t = "1" then
      .ok true
    else if t = "false" ∨ t = "f" ∨ t = "no" ∨ t = "n" ∨ t = "off" ∨ t = "0" then
      .ok false
    else .error "validation error for is_technical"
  | _ => .error "validation error for is_technical"

/-- pydantic v2 lax validation of the `confidence_score: float` field: a
JSON number is accepted as-is — with no range constraint declared on the
field — and a numeric string coerces to the number it spells; anything
else raises `ValidationError`. -/
def asNum : Json → Except String ℚ
  | .jnum q => .ok q
  | .jstr s =>
    match pyFloatOfString s with
    | some q => .ok q
    | none => .error "validation error for confidence_score"
  | _ => .error "validation error for confidence_score"

/-- pydantic v2 validation of a `str` field (even lax mode does not coerce
numbers to strings). -/
def asStr : Json → Except String String
  | .jstr s => .ok s
  | _ => .error "validation error for str"

def asStrList : Json → Except String (List String)
  | .jarr xs => xs.mapM asStr
  | _ => .error "validation error for entities"

/-- The body of `analyze_message`'s success path:
`result.get(key, default)` for each field, then the `TechnicalAnalysis(...)`
construction (pydantic validation).  A non-dict JSON value makes
`result.get` raise `AttributeError`. -/
def parseAnalysis (j : Json) : Except String TechnicalAnalysis :=
  match j with
  | .jobj fields => do
    let it ← asBool ((pyDictGet fields "is_technical").getD (.jbool false))
    let cs ← asNum ((pyDictGet fields "confidence_score").getD (.jnum 0))
    let en ← asStrList ((pyDictGet fields "entities").getD (.jarr []))
    let re ← asStr ((pyDictGet fields "reasoning").getD (.jstr ""))
    .ok ⟨it, cs, en, re⟩
  | _ => .error "AttributeError: get"

/-- The fail-closed result built in `analyze_message`'s `except` clause. -/
def failClosed (e : String) : TechnicalAnalysis :=
  ⟨false, 0, [], "Error during analysis: " ++ e⟩

/-- Model of `ConversationAnalyzer.analyze_message`.  `llm` is the outcome of
`self.llm.ainvoke(prompt)` for the prompt built from `message` and the last
5 `context` entries; every exception raised inside the `try` block (LLM
call, `json.loads`, pydantic validation) yields the fail-closed result. -/
def analyze_message (message : String) (context : List String)
    (llm : Except String String) : TechnicalAnalysis :=
  match llm with
  | .error e => failClosed e
  | .ok content =>
    match json_loads content with
    | .error e => failClosed e
    | .ok j =>
      match parseAnalysis j with
      | .error e => failClosed e
      | .ok ta => ta

end ConversationAnalyzer

/- ===================================================================
   Section G: conversations and the trigger engine
   (backend/api/models/conversation.py, backend/config.py,
    backend/api/services/conversation_service.py)
   =================================================================== -/

/-- Model of `PlatformType` of models/conversation.py. -/
inductive PlatformType where
  | web
  | teams
deriving DecidableEq

/-- A `Conversation` row. -/
structure Conversation where
  id : Nat
  platform : PlatformType
  channel_id : Option String
  thread_id : Option String
deriving DecidableEq

/-- A `Message` row.  `timestamp` is minutes on an absolute integer clock;
`entities` holds the JSON dump stored in the text column. -/
structure Message where
  id : Nat
  conversation_id : Nat
  content : String
  user_id : String
  user_name : Option String
  timestamp : ℤ
  is_technical : Bool
  confidence_score : ℚ
  entities : String
deriving DecidableEq

namespace Settings

/-- Model of `TECHNICAL_CONFIDENCE_THRESHOLD: float = 0.7` of config.py. -/
def TECHNICAL_CONFIDENCE_THRESHOLD : ℚ := 7 / 10

/-- Model of `CONVERSATION_TIME_WINDOW_MINUTES: int = 10` of config.py. -/
def CONVERSATION_TIME_WINDOW_MINUTES : Nat := 10

end Settings

namespace ConversationService

/-- Model of `ConversationService.get_or_create_conversation`: the lookup filters on
`platform` always, and on `channel_id` / `thread_id` only when the argument
is truthy (`if channel_id: …`); if no row matches, a new row with exactly
the given values is inserted.  Returns the conversation together with the
table after the call; `next_id` models the autoincrementing primary key. -/
def get_or_create_conversation (conversations : List Conversation) (next_id : Nat)
    (platform : PlatformType) (channel_id thread_id : Option String) :
    Conversation × List Conversation :=
  let query := fun (c : Conversation) =>
    c.platform = platform
      && (if pyTruthy channel_id then c.channel_id = channel_id else true)
      && (if pyTruthy thread_id then c.thread_id = thread_id else true)
  match conversations.find? query with
  | some c => (c, conversations)
  | none =>
    let c : Conversation :=
      { id := next_id, platform := platform,
        channel_id := channel_id, thread_id := thread_id }
    (c, conversations ++ [c])

/-- Model of `ConversationService.get_technical_messages`: technical messages of one
conversation, restricted to `timestamp >= now - window` when a truthy window
is given, ordered by timestamp. -/
def get_technical_messages (messages : List Message) (conversation_id : Nat)
    (time_window_minutes : Option Nat) (now : ℤ) : List Message :=
  let q := messages.filter
    (fun m => m.conversation_id = conversation_id && m.is_technical)
  let q :=
    match time_window_minutes with
    | some w =>
      if w ≠ 0 then q.filter (fun (m : Message) => now - (w : ℤ) ≤ m.timestamp) else q
    | none => q
  q.insertionSort (fun a b => a.timestamp ≤ b.timestamp)

/-- Model of `ConversationService.should_generate_diagram`: at least 3 recent
technical messages with `confidence_score >= TECHNICAL_CONFIDENCE_THRESHOLD`
inside the `CONVERSATION_TIME_WINDOW_MINUTES` window. -/
def should_generate_diagram (messages : List Message) (conversation_id : Nat)
    (now : ℤ) : Bool :=
  let recent_technical := get_technical_messages messages conversation_id
    (some Settings.CONVERSATION_TIME_WINDOW_MINUTES) now
  if recent_technical.isEmpty then false
  else
    let high_confidence_count := recent_technical.countP
      (fun m => Settings.TECHNICAL_CONFIDENCE_THRESHOLD ≤ m.confidence_score)
    3 ≤ high_confidence_count

end ConversationService

/- ===================================================================
   Section H: diagram rows, the modifier and the diagram service
   (backend/ai/diagram_modifier.py,
    backend/api/services/diagram_service.py)
   =================================================================== -/

/-- A `Diagram` row.  (`created_at` is wall-clock metadata outside the
model.) -/
structure Diagram where
  id : Nat
  conversation_id : Nat
  plantuml_code : String
  drawio_xml : String
  version : Nat
  components_count : Nat
  relationships_count : Nat
  png_url : Option String
deriving DecidableEq

/-- A `Modification` audit row.  (`applied_at` is wall-clock metadata outside
the model.) -/
structure ModificationRec where
  id : Nat
  diagram_id : Nat
  request : String
  user_id : Option String
  success : Bool
  error_message : Option String
deriving DecidableEq

/-- Model of `ModificationResponse` of schemas.py. -/
structure ModificationResponse where
  id : Nat
  diagram_id : Nat
  request : String
  success : Bool
  error_message : Option String
  new_diagram : Option Diagram
deriving DecidableEq

/-- The persistent state the diagram service reads and writes: the two
tables plus their autoincrement counters. -/
structure DBState where
  diagrams : List Diagram
  modifications : List ModificationRec
  next_diagram_id : Nat
  next_modification_id : Nat
deriving DecidableEq

namespace DiagramModifier

/-- Result dict of `modify_plantuml` (`success` / `code` / `error`). -/
structure PlantumlResult where
  success : Bool
  code : String
  error : Option String
deriving DecidableEq

/-- Result dict of `modify_drawio` (`success` / `xml` / `error`). -/
structure DrawioResult where
  success : Bool
  xml : String
  error : Option String
deriving DecidableEq

/-- Model of `DiagramModifier.modify_plantuml`: on success the cleaned LLM output, on
any exception the ORIGINAL code with `success=False`. -/
def modify_plantuml (current_code : String) (modification_request : String)
    (llm : Except String String) : PlantumlResult :=
  match llm with
  | .ok content => ⟨true, stripCodeFence (pyStrip content), none⟩
  | .error e => ⟨false, current_code, some e⟩

/-- Model of `DiagramModifier.modify_drawio`: same shape for the Draw.io XML. -/
def modify_drawio (current_xml : String) (modification_request : String)
    (llm : Except String String) : DrawioResult :=
  match llm with
  | .ok content => ⟨true, stripCodeFence (pyStrip content), none⟩
  | .error e => ⟨false, current_xml, some e⟩

end DiagramModifier

namespace DiagramService

/-- Model of `DiagramService.generate_diagram`: generate both formats from the
extraction (each falling back deterministically on failure) and insert a
diagram row with `version=1`.  `render` is the outcome of the PNG rendering
step (`None` when rendering fails, which never fails the operation). -/
def generate_diagram (st : DBState) (conversation_id : Nat)
    (architecture : ArchitectureExtraction)
    (plantumlLLM drawioLLM : Except String String)
    (render : Option String) : DBState × Diagram :=
  let plantuml_code := PlantUMLGenerator.generate architecture plantumlLLM
  let drawio_xml := DrawioGenerator.generate architecture drawioLLM
  let diagram : Diagram :=
    { id := st.next_diagram_id, conversation_id := conversation_id,
      plantuml_code := plantuml_code, drawio_xml := drawio_xml,
      version := 1,
      components_count := architecture.components.length,
      relationships_count := architecture.relationships.length,
      png_url := render }
  ({ st with diagrams := st.diagrams ++ [diagram],
             next_diagram_id := st.next_diagram_id + 1 },
   diagram)

/-- Model of `DiagramService.modify_diagram`.  The two per-format LLM outcomes drive
`DiagramModifier`; a missing diagram id raises `ValueError` (the `.error`
case).  On double failure only a failed `Modification` row is recorded; when
at least one format succeeds a new diagram row with
`version = original.version + 1` is inserted, followed by a successful
`Modification` row. -/
def modify_diagram (st : DBState) (diagram_id : Nat) (request : String)
    (user_id : Option String) (plantumlLLM drawioLLM : Except String String)
    (render : Option String) :
    Except String (DBState × ModificationResponse) :=
  match st.diagrams.find? (fun d => d.id = diagram_id) with
  | none => .error ("Diagram " ++ toString diagram_id ++ " not found")
  | some original_diagram =>
    let plantuml_result :=
      DiagramModifier.modify_plantuml original_diagram.plantuml_code request plantumlLLM
    let drawio_result :=
      DiagramModifier.modify_drawio original_diagram.drawio_xml request drawioLLM
    if !plantuml_result.success && !drawio_result.success then
      let mod_record : ModificationRec :=
        { id := st.next_modification_id, diagram_id := diagram_id,
          request := request, user_id := user_id, success := false,
          error_message := some "Failed to modify diagram" }
      .ok
        ({ st with modifications := st.modifications ++ [mod_record],
                   next_modification_id := st.next_modification_id + 1 },
         { id := mod_record.id, diagram_id := diagram_id, request := request,
           success := false, error_message := some "Failed to modify diagram",
           new_diagram := none })
    else
      let new_version := original_diagram.version + 1
      let new_diagram : Diagram :=
        { id := st.next_diagram_id,
          conversation_id := original_diagram.conversation_id,
          plantuml_code := plantuml_result.code,
          drawio_xml := drawio_result.xml,
          version := new_version,
          components_count := original_diagram.components_count,
          relationships_count := original_diagram.relationships_count,
          png_url := render }
      let mod_record : ModificationRec :=
        { id := st.next_modification_id, diagram_id := new_diagram.id,
          request := request, user_id := user_id, success := true,
          error_message := none }
      .ok
        ({ st with diagrams := st.diagrams ++ [new_diagram],
                   modifications := st.modifications ++ [mod_record],
                   next_diagram_id := st.next_diagram_id + 1,
                   next_modification_id := st.next_modification_id + 1 },
         { id := mod_record.id, diagram_id := new_diagram.id,
           request := request, success := true, error_message := none,
           new_diagram := some new_diagram })

/-- One step of a sequential modification run: the request text and the two
per-format LLM outcomes. -/
structure ModStep where
  request : String
  user_id : Option String
  plantumlLLM : Except String String
  drawioLLM : Except String String
  render : Option String

/-- A sequence of modification requests, each addressed to the diagram the
previous step produced (the latest version of the lineage); stops early if a
step fails or errors. -/
def runModChain (st : DBState) (current_id : Nat) : List ModStep → DBState
  | [] => st
  | step :: rest =>
    match modify_diagram st current_id step.request step.user_id
        step.plantumlLLM step.drawioLLM step.render with
    | .error _ => st
    | .ok (st2, resp) =>
      match resp.new_diagram with
      | some d => runModChain st2 d.id rest
      | none => st2

end DiagramService

/- ===================================================================
   Theorems.  Helper lemmas first, then one theorem per claim (with a
   witness when the theorem carries hypotheses).
   =================================================================== -/

theorem string_append_ne_empty (s t : String) (h : s.data ≠ []) : s ++ t ≠ "" := by
  intro he
  have hd := congrArg String.data he
  rw [String.data_append] at hd
  simp only [String.data] at hd
  rcases List.append_eq_nil.mp hd with ⟨h1, _⟩
  exact h h1

/-- Claim C4: if the Language-Model call inside classification raises any
exception `e`, `analyze_message` returns exactly
`is_technical=false, confidence_score=0.0`, empty entities, and a non-empty
reasoning string containing the error text; the exception never propagates
(the model function is total). -/
theorem claim_C4_fail_closed (message : String) (context : List String) (e : String) :
    ConversationAnalyzer.analyze_message message context (.error e)
        = { is_technical := false, confidence_score := 0, entities := [],
            reasoning := "Error during analysis: " ++ e }
      ∧ (ConversationAnalyzer.analyze_message message context (.error e)).reasoning ≠ "" := by
  refine ⟨rfl, ?_⟩
  show "Error during analysis: " ++ e ≠ ""
  exact string_append_ne_empty _ _ (by decide)

/-- Claim C9, counterexample: a syntactically valid LLM response carrying
`"confidence_score": 2` flows through `analyze_message` unclamped, so the
resulting confidence_score is 2, outside [0, 1]. -/
theorem claim_C9_counterexample :
    (ConversationAnalyzer.analyze_message "m" []
        (.ok "\x7b\"is_technical\": true, \"confidence_score\": 2, \"entities\": [], \"reasoning\": \"high\"\x7d")).confidence_score = 2
      ∧ ¬((ConversationAnalyzer.analyze_message "m" []
        (.ok "\x7b\"is_technical\": true, \"confidence_score\": 2, \"entities\": [], \"reasoning\": \"high\"\x7d")).confidence_score ≤ 1) := by
  constructor
  · decide
  · decide

theorem parseAnalysis_confidence (fields : List (String × Json)) (ta : TechnicalAnalysis)
    (h : ConversationAnalyzer.parseAnalysis (.jobj fields) = .ok ta) :
    (∃ v, pyDictGet fields "confidence_score" = some v
        ∧ ConversationAnalyzer.asNum v = .ok ta.confidence_score)
      ∨ (pyDictGet fields "confidence_score" = none ∧ ta.confidence_score = 0) := by
  unfold ConversationAnalyzer.parseAnalysis at h
  simp only [bind, Except.bind] at h
  split at h
  · exact absurd h (by simp)
  split at h
  · exact absurd h (by simp)
  split at h
  · exact absurd h (by simp)
  split at h
  · exact absurd h (by simp)
  rename_i it hit cs hcs en hen re hre
  simp only [Except.ok.injEq] at h
  subst h
  rcases hval : pyDictGet fields "confidence_score" with _ | v
  · right
    refine ⟨rfl, ?_⟩
    rw [hval] at hit
    simp only [Option.getD, ConversationAnalyzer.asNum, Except.ok.injEq] at hit
    simpa using hit.symm
  · left
    rw [hval] at hit
    simp only [Option.getD] at hit
    exact ⟨v, rfl, hit⟩

/-- Claim C9, amended: the classification result's confidence_score lies
in [0, 1] on every error path and whenever the field is absent; when the
parsed LLM response supplies a `confidence_score` that the unclamped float
validation accepts — a JSON number, or a numeric string that pydantic lax
mode coerces — exactly that value is stored, so the stored value is in
[0, 1] only if the supplied one is.  (The code enforces no range.) -/
theorem claim_C9_amended (message : String) (context : List String)
    (llm : Except String String) :
    (0 ≤ (ConversationAnalyzer.analyze_message message context llm).confidence_score
        ∧ (ConversationAnalyzer.analyze_message message context llm).confidence_score ≤ 1)
      ∨ (∃ content fields v, llm = .ok content
          ∧ json_loads content = .ok (.jobj fields)
          ∧ pyDictGet fields "confidence_score" = some v
          ∧ ConversationAnalyzer.asNum v
              = .ok (ConversationAnalyzer.analyze_message message context llm).confidence_score) := by
  rcases llm with e | content
  · left
    constructor <;> simp [ConversationAnalyzer.analyze_message, ConversationAnalyzer.failClosed]
  simp only [ConversationAnalyzer.analyze_message]
  split
  · left; constructor <;> simp [ConversationAnalyzer.failClosed]
  rename_i j hj
  split
  · left; constructor <;> simp [ConversationAnalyzer.failClosed]
  rename_i ta hp
  cases j with
  | jobj fields =>
    rcases parseAnalysis_confidence fields ta hp with ⟨v, hv, hnum⟩ | ⟨_, hc0⟩
    · right
      exact ⟨content, fields, v, rfl, hj, hv, hnum⟩
    · left
      rw [hc0]
      constructor <;> norm_num
  | null => exact absurd hp (by simp [ConversationAnalyzer.parseAnalysis])
  | jbool b => exact absurd hp (by simp [ConversationAnalyzer.parseAnalysis])
  | jnum q => exact absurd hp (by simp [ConversationAnalyzer.parseAnalysis])
  | jstr s => exact absurd hp (by simp [ConversationAnalyzer.parseAnalysis])
  | jarr xs => exact absurd hp (by simp [ConversationAnalyzer.parseAnalysis])

/-- Claim C10, counterexample: with an existing conversation
`(teams, "c1", "t1")`, calling `get_or_create_conversation` for
`(teams, None, None)` skips the falsy filters and returns that conversation,
whose `channel_id`/`thread_id` differ from the arguments. -/
theorem claim_C10_counterexample :
    (ConversationService.get_or_create_conversation
        [⟨1, .teams, some "c1", some "t1"⟩] 2 .teams none none).1
      = ⟨1, .teams, some "c1", some "t1"⟩
    ∧ (some "c1" : Option String) ≠ none ∧ (some "t1" : Option String) ≠ none := by
  refine ⟨by decide, by decide, by decide⟩

/-- Claim C10, amended: whenever `channel_id` and `thread_id` are both
provided and non-empty (truthy), the conversation returned by
`get_or_create_conversation` carries exactly the given platform, channel_id
and thread_id — found rows match all three filters and a created row copies
the arguments.  (With a `None`/empty argument the corresponding filter is
skipped and the returned row's field may differ.) -/
theorem claim_C10_amended (conversations : List Conversation) (next_id : Nat)
    (platform : PlatformType) (channel_id thread_id : Option String)
    (h1 : pyTruthy channel_id = true) (h2 : pyTruthy thread_id = true) :
    (ConversationService.get_or_create_conversation
        conversations next_id platform channel_id thread_id).1.platform = platform
    ∧ (ConversationService.get_or_create_conversation
        conversations next_id platform channel_id thread_id).1.channel_id = channel_id
    ∧ (ConversationService.get_or_create_conversation
        conversations next_id platform channel_id thread_id).1.thread_id = thread_id := by
  unfold ConversationService.get_or_create_conversation
  simp only [h1, h2, if_true]
  split
  · rename_i c heq
    have hq := List.find?_some heq
    simp only [Bool.and_eq_true, decide_eq_true_eq] at hq
    exact ⟨hq.1.1, hq.1.2, hq.2⟩
  · exact ⟨rfl, rfl, rfl⟩

theorem claim_C10_amended_witness :
    ((ConversationService.get_or_create_conversation [] 1 .web (some "c") (some "t")).1.platform
        = .web)
    ∧ (ConversationService.get_or_create_conversation [] 1 .web (some "c") (some "t")).1.channel_id
        = some "c"
    ∧ (ConversationService.get_or_create_conversation [] 1 .web (some "c") (some "t")).1.thread_id
        = some "t" :=
  claim_C10_amended [] 1 .web (some "c") (some "t") (by decide) (by decide)

/-- Claim C8: the Draw.io fallback places component `i` at
`x = 100 + (i mod 3) * 200`, `y = 100 + (i div 3) * 200` (column `i mod 3`,
row `i div 3`, spacing 200), a pure function of the index alone, and
distinct indices always receive distinct positions. -/
theorem claim_C8_grid :
    (∀ idx : Nat, DrawioGenerator.compX idx = 100 + (idx % 3) * 200
        ∧ DrawioGenerator.compY idx = 100 + (idx / 3) * 200)
    ∧ (∀ idx comp, DrawioGenerator.compCell idx comp
        = .node "mxCell"
            [("id", DrawioGenerator.compCellId idx), ("value", comp.name),
             ("style", DrawioGenerator.compStyle comp.type),
             ("vertex", "1"), ("parent", "1")]
            [.node "mxGeometry"
              [("x", toString (100 + (idx % 3) * 200)),
               ("y", toString (100 + (idx / 3) * 200)),
               ("width", "120"), ("height", "60"), ("as", "geometry")] []])
    ∧ (∀ i j : Nat, i ≠ j →
        (DrawioGenerator.compX i, DrawioGenerator.compY i)
          ≠ (DrawioGenerator.compX j, DrawioGenerator.compY j)) := by
  refine ⟨fun idx => ⟨rfl, rfl⟩, fun idx comp => rfl, fun i j hne h => hne ?_⟩
  simp only [Prod.mk.injEq, DrawioGenerator.compX, DrawioGenerator.compY] at h
  omega

theorem claim_C8_grid_witness :
    (DrawioGenerator.compX 0, DrawioGenerator.compY 0)
      ≠ (DrawioGenerator.compX 1, DrawioGenerator.compY 1) :=
  claim_C8_grid.2.2 0 1 (by decide)

theorem modify_diagram_success (st : DBState) (diagram_id : Nat) (request : String)
    (user_id : Option String) (puLLM drLLM : Except String String)
    (render : Option String) (orig : Diagram)
    (hfind : st.diagrams.find? (fun d => d.id = diagram_id) = some orig)
    (hok : (DiagramModifier.modify_plantuml orig.plantuml_code request puLLM).success = true
         ∨ ( DiagramModifier.modify_drawio orig.drawio_xml request drLLM).success = true) :
    DiagramService.modify_diagram st diagram_id request user_id puLLM drLLM render
      = .ok
        ({ st with
            diagrams := st.diagrams ++
              [{ id := st.next_diagram_id,
                 conversation_id := orig.conversation_id,
                 plantuml_code :=
                   (DiagramModifier.modify_plantuml orig.plantuml_code request puLLM).code,
                 drawio_xml :=
                   ( DiagramModifier.modify_drawio orig.drawio_xml request drLLM).xml,
                 version := orig.version + 1,
                 components_count := orig.components_count,
                 relationships_count := orig.relationships_count,
                 png_url := render }],
            modifications := st.modifications ++
              [{ id := st.next_modification_id, diagram_id := st.next_diagram_id,
                 request := request, user_id := user_id, success := true,
                 error_message := none }],
            next_diagram_id := st.next_diagram_id + 1,
            next_modification_id := st.next_modification_id + 1 },
         { id := st.next_modification_id, diagram_id := st.next_diagram_id,
           request := request, success := true, error_message := none,
           new_diagram := some
             { id := st.next_diagram_id,
               conversation_id := orig.conversation_id,
               plantuml_code :=
                 (DiagramModifier.modify_plantuml orig.plantuml_code request puLLM).code,
               drawio_xml :=
                 ( DiagramModifier.modify_drawio orig.drawio_xml request drLLM).xml,
               version := orig.version + 1,
               components_count := orig.components_count,
               relationships_count := orig.relationships_count,
               png_url := render } }) := by
  unfold DiagramService.modify_diagram
  rw [hfind]
  have hcond : (!(DiagramModifier.modify_plantuml orig.plantuml_code request puLLM).success
      && !( DiagramModifier.modify_drawio orig.drawio_xml request drLLM).success) = false := by
    rcases hok with h | h <;> simp [h]
  simp only [hcond, Bool.false_eq_true, if_false]

theorem modify_diagram_both_fail (st : DBState) (diagram_id : Nat) (request : String)
    (user_id : Option String) (e1 e2 : String) (render : Option String) (orig : Diagram)
    (hfind : st.diagrams.find? (fun d => d.id = diagram_id) = some orig) :
    DiagramService.modify_diagram st diagram_id request user_id
        (.error e1) (.error e2) render
      = .ok
        ({ st with
            modifications := st.modifications ++
              [{ id := st.next_modification_id, diagram_id := diagram_id,
                 request := request, user_id := user_id, success := false,
                 error_message := some "Failed to modify diagram" }],
            next_modification_id := st.next_modification_id + 1 },
         { id := st.next_modification_id, diagram_id := diagram_id,
           request := request, success := false,
           error_message := some "Failed to modify diagram",
           new_diagram := none }) := by
  unfold DiagramService.modify_diagram
  rw [hfind]
  simp [DiagramModifier.modify_plantuml, DiagramModifier.modify_drawio]

/-- Claim C3: when exactly one of the two per-format modify calls succeeds,
`modify_diagram` still creates a new version whose source for the
succeeding format is the newly modified text and whose source for the
failing format equals the previous version's source, unchanged. -/
theorem claim_C3_one_format_failure (st : DBState) (diagram_id : Nat) (request : String)
    (user_id : Option String) (render : Option String) (orig : Diagram)
    (puLLM drLLM : Except String String)
    (hfind : st.diagrams.find? (fun d => d.id = diagram_id) = some orig)
    (hone : ((∃ a, puLLM = .ok a) ∧ (∃ e, drLLM = .error e))
          ∨ ((∃ e, puLLM = .error e) ∧ (∃ a, drLLM = .ok a))) :
    ∃ st2 resp newD,
      DiagramService.modify_diagram st diagram_id request user_id puLLM drLLM render
          = .ok (st2, resp)
      ∧ resp.success = true
      ∧ resp.new_diagram = some newD
      ∧ st2.diagrams = st.diagrams ++ [newD]
      ∧ newD.version = orig.version + 1
      ∧ newD.plantuml_code = (match puLLM with
          | .ok content => stripCodeFence (pyStrip content)
          | .error _ => orig.plantuml_code)
      ∧ newD.drawio_xml = (match drLLM with
          | .ok content => stripCodeFence (pyStrip content)
          | .error _ => orig.drawio_xml) := by
  rcases hone with ⟨⟨a, ha⟩, ⟨e, he⟩⟩ | ⟨⟨e, he⟩, ⟨a, ha⟩⟩
  · subst ha; subst he
    have h := modify_diagram_success st diagram_id request user_id (.ok a) (.error e)
      render orig hfind (Or.inl rfl)
    exact ⟨_, _, _, h, rfl, rfl, rfl, rfl,
      by simp [DiagramModifier.modify_plantuml],
      by simp [ DiagramModifier.modify_drawio]⟩
  · subst ha; subst he
    have h := modify_diagram_success st diagram_id request user_id (.error e) (.ok a)
      render orig hfind (Or.inr rfl)
    exact ⟨_, _, _, h, rfl, rfl, rfl, rfl,
      by simp [DiagramModifier.modify_plantuml],
      by simp [ DiagramModifier.modify_drawio]⟩

theorem claim_C3_one_format_failure_witness :
    ∃ st2 resp newD,
      DiagramService.modify_diagram ⟨[⟨1, 7, "P", "X", 1, 0, 0, none⟩], [], 2, 1⟩
          1 "req" none (.error "boom") (.ok "NEWXML") none
          = .ok (st2, resp)
      ∧ resp.success = true
      ∧ resp.new_diagram = some newD
      ∧ st2.diagrams = [⟨1, 7, "P", "X", 1, 0, 0, none⟩] ++ [newD]
      ∧ newD.version = (⟨1, 7, "P", "X", 1, 0, 0, none⟩ : Diagram).version + 1
      ∧ newD.plantuml_code = (match (.error "boom" : Except String String) with
          | .ok content => stripCodeFence (pyStrip content)
          | .error _ => (⟨1, 7, "P", "X", 1, 0, 0, none⟩ : Diagram).plantuml_code)
      ∧ newD.drawio_xml = (match (.ok "NEWXML" : Except String String) with
          | .ok content => stripCodeFence (pyStrip content)
          | .error _ => (⟨1, 7, "P", "X", 1, 0, 0, none⟩ : Diagram).drawio_xml) :=
  claim_C3_one_format_failure ⟨[⟨1, 7, "P", "X", 1, 0, 0, none⟩], [], 2, 1⟩ 1 "req"
    none none ⟨1, 7, "P", "X", 1, 0, 0, none⟩ (.error "boom") (.ok "NEWXML")
    (by rfl) (.inr ⟨⟨"boom", rfl⟩, ⟨"NEWXML", rfl⟩⟩)

/-- Claim C7: when both per-format modify calls fail, `modify_diagram`
creates no new diagram row, records a failed `Modification` audit entry with
a non-empty error message, and returns a well-formed `ModificationResponse`
with `success=false` and no new diagram, instead of raising. -/
theorem claim_C7_double_failure (st : DBState) (diagram_id : Nat) (request : String)
    (user_id : Option String) (e1 e2 : String) (render : Option String) (orig : Diagram)
    (hfind : st.diagrams.find? (fun d => d.id = diagram_id) = some orig) :
    ∃ st2 resp,
      DiagramService.modify_diagram st diagram_id request user_id
          (.error e1) (.error e2) render = .ok (st2, resp)
      ∧ st2.diagrams = st.diagrams
      ∧ st2.modifications = st.modifications ++
          [{ id := st.next_modification_id, diagram_id := diagram_id,
             request := request, user_id := user_id, success := false,
             error_message := some "Failed to modify diagram" }]
      ∧ resp.success = false
      ∧ resp.new_diagram = none
      ∧ resp.error_message = some "Failed to modify diagram"
      ∧ ("Failed to modify diagram" : String) ≠ "" :=
  ⟨_, _, modify_diagram_both_fail st diagram_id request user_id e1 e2 render orig hfind,
   rfl, rfl, rfl, rfl, rfl, by decide⟩

theorem claim_C7_double_failure_witness :
    ∃ st2 resp,
      DiagramService.modify_diagram ⟨[⟨1, 7, "P", "X", 1, 0, 0, none⟩], [], 2, 1⟩
          1 "req" (some "u") (.error "ea") (.error "eb") none = .ok (st2, resp)
      ∧ st2.diagrams = [⟨1, 7, "P", "X", 1, 0, 0, none⟩]
      ∧ st2.modifications = [] ++
          [{ id := 1, diagram_id := 1, request := "req", user_id := some "u",
             success := false, error_message := some "Failed to modify diagram" }]
      ∧ resp.success = false
      ∧ resp.new_diagram = none
      ∧ resp.error_message = some "Failed to modify diagram"
      ∧ ("Failed to modify diagram" : String) ≠ "" :=
  claim_C7_double_failure ⟨[⟨1, 7, "P", "X", 1, 0, 0, none⟩], [], 2, 1⟩ 1 "req"
    (some "u") "ea" "eb" none ⟨1, 7, "P", "X", 1, 0, 0, none⟩ (by rfl)

set_option maxHeartbeats 1000000 in
/-- Claim C2, counterexample: `generate_diagram` always writes `version=1`,
so generating twice for the same conversation (reachable through
`force_regenerate`) yields two rows with version 1 — versions are neither
unique per conversation nor `max+1`. -/
theorem claim_C2_counterexample :
    ((DiagramService.generate_diagram
        (DiagramService.generate_diagram ⟨[], [], 1, 1⟩ 7 ⟨[], [], ""⟩
          (.error "x") (.error "y") none).1
        7 ⟨[], [], ""⟩ (.error "x") (.error "y") none).1.diagrams.map
      (fun d => (d.conversation_id, d.version))) = [(7, 1), (7, 1)]
    ∧ ¬ ((DiagramService.generate_diagram
        (DiagramService.generate_diagram ⟨[], [], 1, 1⟩ 7 ⟨[], [], ""⟩
          (.error "x") (.error "y") none).1
        7 ⟨[], [], ""⟩ (.error "x") (.error "y") none).1.diagrams.map
      (fun d => d.version)).Nodup := by
  constructor <;> decide

theorem runModChain_versions (steps : List DiagramService.ModStep) :
    ∀ (st : DBState) (cur m : Nat) (last : Diagram),
      st.diagrams.find? (fun d => d.id = cur) = some last →
      last.version = m →
      (st.diagrams.map fun d => d.version) = List.range' 1 m →
      (∀ d ∈ st.diagrams, d.id < st.next_diagram_id) →
      (∀ s ∈ steps, (∃ a, s.plantumlLLM = .ok a) ∨ (∃ a, s.drawioLLM = .ok a)) →
      ((DiagramService.runModChain st cur steps).diagrams.map fun d => d.version)
        = List.range' 1 (m + steps.length) := by
  induction steps with
  | nil =>
    intro st cur m last _ _ hmap _ _
    simpa [DiagramService.runModChain] using hmap
  | cons step rest ih =>
    intro st cur m last hfind hver hmap hids hsteps
    have hok : (DiagramModifier.modify_plantuml last.plantuml_code step.request
          step.plantumlLLM).success = true
        ∨ ( DiagramModifier.modify_drawio last.drawio_xml step.request
          step.drawioLLM).success = true := by
      rcases hsteps step (by simp) with ⟨a, ha⟩ | ⟨a, ha⟩
      · left; rw [ha]; rfl
      · right; rw [ha]; rfl
    have hmod := modify_diagram_success st cur step.request step.user_id
      step.plantumlLLM step.drawioLLM step.render last hfind hok
    unfold DiagramService.runModChain
    rw [hmod]
    dsimp only
    rw [ih _ st.next_diagram_id (m + 1)
        { id := st.next_diagram_id, conversation_id := last.conversation_id,
          plantuml_code :=
            (DiagramModifier.modify_plantuml last.plantuml_code step.request
              step.plantumlLLM).code,
          drawio_xml :=
            ( DiagramModifier.modify_drawio last.drawio_xml step.request
              step.drawioLLM).xml,
          version := last.version + 1, components_count := last.components_count,
          relationships_count := last.relationships_count, png_url := step.render }
        ?hfind2 ?hver2 ?hmap2 ?hids2 ?hsteps2]
    · congr 1
      simp only [List.length_cons]
      omega
    case hfind2 =>
      rw [List.find?_append]
      have hnone : st.diagrams.find? (fun d => d.id = st.next_diagram_id) = none := by
        rw [List.find?_eq_none]
        intro d hd
        have := hids d hd
        simp only [decide_eq_true_eq]
        omega
      rw [hnone]
      simp
    case hver2 => simp [hver]
    case hmap2 =>
      rw [List.map_append, hmap]
      simp [List.range'_concat, hver, Nat.add_comm]
    case hids2 =>
      intro d hd
      rcases List.mem_append.mp hd with hd | hd
      · have := hids d hd
        dsimp only
        omega
      · simp only [List.mem_singleton] at hd
        subst hd
        dsimp only
        omega
    case hsteps2 =>
      intro s hs
      exact hsteps s (List.mem_cons_of_mem _ hs)

/-- Claim C2, amended: the version written by `generate_diagram` is always 1
and the version written by a successful modification is the TARGET
diagram's version plus one (not the conversation maximum plus one).
Consequently one generation from a fresh state followed by N successful
sequential modifications, each addressed to the diagram produced by the
previous step, yields versions exactly {1, …, N+1}; but a second generation
for the same conversation, or a modification of a non-latest version,
repeats an already-used version number (see the counterexample). -/
theorem claim_C2_amended (c : Nat) (arch : ArchitectureExtraction)
    (genPu genDr : Except String String) (genRender : Option String)
    (steps : List DiagramService.ModStep)
    (hsteps : ∀ s ∈ steps, (∃ a, s.plantumlLLM = .ok a) ∨ (∃ a, s.drawioLLM = .ok a)) :
    ((DiagramService.runModChain
        (DiagramService.generate_diagram ⟨[], [], 1, 1⟩ c arch genPu genDr genRender).1
        (DiagramService.generate_diagram ⟨[], [], 1, 1⟩ c arch genPu genDr genRender).2.id
        steps).diagrams.map fun d => d.version)
      = List.range' 1 (steps.length + 1) := by
  rw [runModChain_versions steps
      (DiagramService.generate_diagram ⟨[], [], 1, 1⟩ c arch genPu genDr genRender).1
      (DiagramService.generate_diagram ⟨[], [], 1, 1⟩ c arch genPu genDr genRender).2.id
      1
      (DiagramService.generate_diagram ⟨[], [], 1, 1⟩ c arch genPu genDr genRender).2
      rfl rfl ?hmap ?hids hsteps]
  · rw [Nat.add_comm]
  case hmap => simp [DiagramService.generate_diagram, List.range']
  case hids =>
    intro d hd
    simp only [DiagramService.generate_diagram, List.nil_append,
      List.mem_singleton] at hd
    subst hd
    simp only [DiagramService.generate_diagram]
    omega

theorem claim_C2_amended_witness :
    ((DiagramService.runModChain
        (DiagramService.generate_diagram ⟨[], [], 1, 1⟩ 7 ⟨[], [], ""⟩
          (.error "x") (.error "y") none).1
        (DiagramService.generate_diagram ⟨[], [], 1, 1⟩ 7 ⟨[], [], ""⟩
          (.error "x") (.error "y") none).2.id
        [⟨"r1", none, .ok "A", .ok "B", none⟩,
         ⟨"r2", none, .error "e", .ok "C", none⟩]).diagrams.map
      fun d => d.version) = List.range' 1 3 :=
  claim_C2_amended 7 ⟨[], [], ""⟩ (.error "x") (.error "y") none
    [⟨"r1", none, .ok "A", .ok "B", none⟩,
     ⟨"r2", none, .error "e", .ok "C", none⟩]
    (by
      intro s hs
      simp only [List.mem_cons, List.not_mem_nil, or_false] at hs
      rcases hs with rfl | rfl
      · exact Or.inl ⟨"A", rfl⟩
      · exact Or.inr ⟨"C", rfl⟩)

/-- Claim C5: `should_generate_diagram` returns true exactly when at least 3
technical messages of the conversation have a timestamp inside the trailing
10-minute window and a confidence_score of at least 0.7.  Being a pure
function of the message table and the evaluation instant, re-evaluating it
without a new message yields the same answer. -/
theorem claim_C5_trigger (messages : List Message) (conversation_id : Nat) (now : ℤ) :
    ConversationService.should_generate_diagram messages conversation_id now = true
      ↔ 3 ≤ (messages.filter (fun m =>
            decide (m.conversation_id = conversation_id ∧ m.is_technical = true
              ∧ now - 10 ≤ m.timestamp
              ∧ (7 : ℚ) / 10 ≤ m.confidence_score))).length := by
  have hperm := List.perm_insertionSort
    (fun (a b : Message) => a.timestamp ≤ b.timestamp)
    (((messages.filter (fun m =>
        m.conversation_id = conversation_id && m.is_technical)).filter
      (fun m => now - ((10 : Nat) : ℤ) ≤ m.timestamp)))
  have hrecent : ConversationService.get_technical_messages messages conversation_id
      (some Settings.CONVERSATION_TIME_WINDOW_MINUTES) now
        = (((messages.filter (fun m =>
            m.conversation_id = conversation_id && m.is_technical)).filter
          (fun m => now - ((10 : Nat) : ℤ) ≤ m.timestamp))).insertionSort
            (fun a b => a.timestamp ≤ b.timestamp) := by
    unfold ConversationService.get_technical_messages
    simp [Settings.CONVERSATION_TIME_WINDOW_MINUTES]
  have hcount : (ConversationService.get_technical_messages messages conversation_id
      (some Settings.CONVERSATION_TIME_WINDOW_MINUTES) now).countP
        (fun m => Settings.TECHNICAL_CONFIDENCE_THRESHOLD ≤ m.confidence_score)
      = (messages.filter (fun m =>
          decide (m.conversation_id = conversation_id ∧ m.is_technical = true
            ∧ now - 10 ≤ m.timestamp
            ∧ (7 : ℚ) / 10 ≤ m.confidence_score))).length := by
    rw [hrecent, hperm.countP_eq, List.countP_filter, List.countP_filter,
      ← List.countP_eq_length_filter]
    apply List.countP_congr
    intro m _
    simp only [Settings.TECHNICAL_CONFIDENCE_THRESHOLD, Bool.and_eq_true,
      decide_eq_true_eq]
    constructor
    · rintro ⟨⟨hc, ht⟩, ⟨hcv, htech⟩⟩
      exact ⟨hcv, htech, by exact_mod_cast ht, hc⟩
    · rintro ⟨hcv, htech, ht, hc⟩
      exact ⟨⟨hc, by exact_mod_cast ht⟩, ⟨hcv, htech⟩⟩
  unfold ConversationService.should_generate_diagram
  dsimp only
  rcases hemp : (ConversationService.get_technical_messages messages conversation_id
      (some Settings.CONVERSATION_TIME_WINDOW_MINUTES) now).isEmpty with _ | _
  · simp only [Bool.false_eq_true, if_false, decide_eq_true_eq]
    rw [hcount]
  · rw [if_pos rfl]
    have h0 : (ConversationService.get_technical_messages messages conversation_id
        (some Settings.CONVERSATION_TIME_WINDOW_MINUTES) now) = [] :=
      List.isEmpty_iff.mp hemp
    rw [← hcount, h0]
    simp

theorem lookup_isSome_iff_mem_keys (m : List (String × String)) (k : String) :
    (List.lookup k m).isSome = true ↔ k ∈ m.map Prod.fst := by
  induction m with
  | nil => simp [List.lookup]
  | cons p t ih =>
    obtain ⟨a, b⟩ := p
    simp only [List.lookup, List.map_cons, List.mem_cons]
    split
    · rename_i h
      simp only [beq_iff_eq] at h
      simp [h]
    · rename_i h
      simp only [beq_eq_false_iff_ne] at h
      simp [ih, h]

theorem componentMap_keys (comps : List ArchitectureEntity) :
    (DrawioGenerator.componentMap comps).map Prod.fst
      = comps.map (fun c => c.name) := by
  unfold DrawioGenerator.componentMap
  rw [List.map_map]
  have h2 : comps.enum.map (Prod.fst ∘ fun p => (p.2.name, DrawioGenerator.compCellId p.1))
      = (comps.enum.map Prod.snd).map (fun c => c.name) := by
    rw [List.map_map]
    rfl
  rw [h2, List.enum_map_snd]

theorem pyDictGet_componentMap_isSome (comps : List ArchitectureEntity) (k : String) :
    (pyDictGet (DrawioGenerator.componentMap comps) k).isSome
      = decide (k ∈ comps.map (fun c => c.name)) := by
  have h : (pyDictGet (DrawioGenerator.componentMap comps) k).isSome = true
      ↔ k ∈ comps.map (fun c => c.name) := by
    unfold pyDictGet
    rw [lookup_isSome_iff_mem_keys, List.map_reverse, List.mem_reverse,
      componentMap_keys]
  by_cases hmem : k ∈ comps.map (fun c => c.name)
  · rw [h.mpr hmem, decide_eq_true hmem]
  · have h2 : (pyDictGet (DrawioGenerator.componentMap comps) k).isSome = false := by
      cases hb : (pyDictGet (DrawioGenerator.componentMap comps) k).isSome
      · rfl
      · exact absurd (h.mp hb) hmem
    rw [h2, decide_eq_false hmem]

theorem edgeCells_length (cmap : List (String × String))
    (rels : List ArchitectureRelationship) :
    ∀ k, (DrawioGenerator.edgeCells cmap rels k).length
      = (rels.filter (fun r =>
          (pyDictGet cmap r.source).isSome && (pyDictGet cmap r.target).isSome)).length := by
  induction rels with
  | nil => intro k; rfl
  | cons r rest ih =>
    intro k
    unfold DrawioGenerator.edgeCells
    rcases hs : pyDictGet cmap r.source with _ | s <;>
      rcases ht : pyDictGet cmap r.target with _ | t <;>
      simp [List.filter_cons, hs, ht, ih]

set_option maxRecDepth 4000 in
/-- Claim C1, counterexample: for components [API, DB] and the single
unresolved relationship API→Cache, the PlantUML fallback emits the edge line
`API --> Cache` anyway (1 edge, not 0): the PlantUML fallback does not
filter unresolved relationships. -/
theorem claim_C1_counterexample :
    PlantUMLGenerator.generate_fallback_lines
        ⟨[⟨"api", "API", []⟩, ⟨"database", "DB", []⟩],
         [⟨"API", "Cache", "api_call", none⟩], ""⟩
      = ["@startuml", "skinparam componentStyle rectangle", "",
         "component \"API\" as API", "database \"DB\" as DB", "",
         "API --> Cache", "@enduml"]
    ∧ containsSub
        (PlantUMLGenerator.generate_fallback_diagram
          ⟨[⟨"api", "API", []⟩, ⟨"database", "DB", []⟩],
           [⟨"API", "Cache", "api_call", none⟩], ""⟩)
        "API --> Cache" = true := by
  constructor
  · decide
  · decide

/-- Claim C1, amended: only the Draw.io fallback drops relationships whose
source or target does not match a component name — its edge count equals the
number of resolved relationships (so the scenario yields 2 nodes, 0 edges
there).  The PlantUML fallback instead renders a line for every
relationship, resolved or not (without error).  Neither generator errors. -/
theorem claim_C1_amended :
    (∀ (arch : ArchitectureExtraction) (k : Nat),
        (DrawioGenerator.edgeCells (DrawioGenerator.componentMap arch.components)
            arch.relationships k).length
          = (arch.relationships.filter (fun r =>
              decide (r.source ∈ arch.components.map (fun c => c.name))
                && decide (r.target ∈ arch.components.map (fun c => c.name)))).length)
    ∧ (∀ (arch : ArchitectureExtraction) rel, rel ∈ arch.relationships →
        PlantUMLGenerator.relLine rel ∈ PlantUMLGenerator.generate_fallback_lines arch) := by
  constructor
  · intro arch k
    rw [edgeCells_length]
    congr 1
    apply List.filter_congr
    intro r _
    rw [pyDictGet_componentMap_isSome, pyDictGet_componentMap_isSome]
  · intro arch rel h
    unfold PlantUMLGenerator.generate_fallback_lines
    exact List.mem_append_left _ (List.mem_append_right _ (List.mem_map_of_mem _ h))

theorem claim_C1_amended_witness :
    PlantUMLGenerator.relLine ⟨"API", "Cache", "api_call", none⟩
      ∈ PlantUMLGenerator.generate_fallback_lines
        ⟨[⟨"api", "API", []⟩, ⟨"database", "DB", []⟩],
         [⟨"API", "Cache", "api_call", none⟩], ""⟩ :=
  claim_C1_amended.2
    ⟨[⟨"api", "API", []⟩, ⟨"database", "DB", []⟩],
     [⟨"API", "Cache", "api_call", none⟩], ""⟩
    ⟨"API", "Cache", "api_call", none⟩ (by decide)

theorem joinLines_data_cons (a : String) (l : List String) :
    ∃ t, (joinLines (a :: l)).data = a.data ++ t := by
  cases l with
  | nil => exact ⟨[], by simp [joinLines]⟩
  | cons b rest =>
    refine ⟨"\n".data ++ (joinLines (b :: rest)).data, ?_⟩
    show (a ++ "\n" ++ joinLines (b :: rest)).data = _
    rw [String.data_append, String.data_append, List.append_assoc]

theorem joinLines_data_concat (l : List String) (a : String) :
    ∃ t, (joinLines (l ++ [a])).data = t ++ a.data := by
  induction l with
  | nil => exact ⟨[], by simp [joinLines]⟩
  | cons x l' ih =>
    rcases ih with ⟨t, ht⟩
    rcases hl : l' ++ [a] with _ | ⟨y, rest⟩
    · exact absurd hl (by simp)
    · refine ⟨x.data ++ "\n".data ++ t, ?_⟩
      show (joinLines (x :: (l' ++ [a]))).data = _
      rw [hl]
      show (x ++ "\n" ++ joinLines (y :: rest)).data = _
      rw [String.data_append, String.data_append, ← hl, ht, List.append_assoc,
        List.append_assoc, List.append_assoc]

theorem mem_dropWhile_of_not (p : Char → Bool) (l : List Char) (c : Char)
    (hc : c ∈ l) (hp : p c = false) : c ∈ l.dropWhile p := by
  induction l with
  | nil => cases hc
  | cons x xs ih =>
    rcases hb : p x with _ | _
    · rw [List.dropWhile_cons, hb]
      simpa using hc
    · rw [List.dropWhile_cons, hb]
      simp only [if_true]
      rcases List.mem_cons.mp hc with rfl | hx
      · exact absurd hb (by simp [hp])
      · exact ih hx

theorem pyStrip_ne_empty (s : String) (c : Char) (hc : c ∈ s.data)
    (hw : c.isWhitespace = false) : pyStrip s ≠ "" := by
  intro h
  have hd : (pyStrip s).data = [] := by rw [h]
  unfold pyStrip at hd
  simp only [List.reverse_eq_nil_iff] at hd
  rw [List.dropWhile_eq_nil_iff] at hd
  have h1 : c ∈ s.data.dropWhile Char.isWhitespace :=
    mem_dropWhile_of_not _ _ _ hc hw
  have h2 : c ∈ (s.data.dropWhile Char.isWhitespace).reverse :=
    List.mem_reverse.mpr h1
  have := hd c h2
  rw [hw] at this
  cases this

theorem validate_plantuml_fallback (architecture : ArchitectureExtraction) :
    PlantUMLGenerator.validate_plantuml
      (PlantUMLGenerator.generate_fallback_diagram architecture) = true := by
  have hstart : ∃ t, (PlantUMLGenerator.generate_fallback_diagram architecture).data
      = "@startuml".data ++ t := by
    unfold PlantUMLGenerator.generate_fallback_diagram
      PlantUMLGenerator.generate_fallback_lines
    exact joinLines_data_cons "@startuml" _
  have hend : ∃ t, (PlantUMLGenerator.generate_fallback_diagram architecture).data
      = t ++ "@enduml".data := by
    unfold PlantUMLGenerator.generate_fallback_diagram
      PlantUMLGenerator.generate_fallback_lines
    rw [show ["@startuml", "skinparam componentStyle rectangle", ""]
        ++ architecture.components.map PlantUMLGenerator.compLine
        ++ [""]
        ++ architecture.relationships.map PlantUMLGenerator.relLine
        ++ ["@enduml"]
      = (["@startuml", "skinparam componentStyle rectangle", ""]
        ++ architecture.components.map PlantUMLGenerator.compLine
        ++ [""]
        ++ architecture.relationships.map PlantUMLGenerator.relLine)
        ++ ["@enduml"] by simp]
    exact joinLines_data_concat _ "@enduml"
  rcases hstart with ⟨t1, ht1⟩
  rcases hend with ⟨t2, ht2⟩
  unfold PlantUMLGenerator.validate_plantuml
  rw [if_neg, if_neg]
  · simp only [Bool.or_eq_true, Bool.not_eq_true]
    intro h
    rcases h with h | h
    · have : containsSub (PlantUMLGenerator.generate_fallback_diagram architecture)
          "@startuml" = true := by
        unfold containsSub
        rw [decide_eq_true_eq, ht1]
        exact ⟨[], t1, by simp⟩
      rw [this] at h
      cases h
    · have : containsSub (PlantUMLGenerator.generate_fallback_diagram architecture)
          "@enduml" = true := by
        unfold containsSub
        rw [decide_eq_true_eq, ht2]
        exact ⟨t2, [], by simp⟩
      rw [this] at h
      cases h
  · apply pyStrip_ne_empty _ '@'
    · rw [ht1]
      exact List.mem_append_left _ (by decide)
    · decide

namespace Xml

theorem takeWhile_append_stop (p : Char → Bool) (l₁ : List Char) (c : Char)
    (l₂ : List Char) (h1 : ∀ x ∈ l₁, p x = true) (h2 : p c = false) :
    (l₁ ++ c :: l₂).takeWhile p = l₁ := by
  induction l₁ with
  | nil => simp [List.takeWhile_cons, h2]
  | cons x xs ih =>
    have hx := h1 x (by simp)
    simp only [List.cons_append, List.takeWhile_cons, hx, if_true]
    rw [ih (fun y hy => h1 y (by simp [hy]))]

theorem dropWhile_append_stop (p : Char → Bool) (l₁ : List Char) (c : Char)
    (l₂ : List Char) (h1 : ∀ x ∈ l₁, p x = true) (h2 : p c = false) :
    (l₁ ++ c :: l₂).dropWhile p = c :: l₂ := by
  induction l₁ with
  | nil => simp [List.dropWhile_cons, h2]
  | cons x xs ih =>
    have hx := h1 x (by simp)
    simp only [List.cons_append, List.dropWhile_cons, hx, if_true]
    exact ih (fun y hy => h1 y (by simp [hy]))

theorem escChar_no_quote (x : Char) : ∀ c ∈ escChar x, ¬(c = '"') := by
  intro c hc
  unfold escChar at hc
  split_ifs at hc <;>
    first
      | (simp only [show ("&amp;" : String).data = ['&', 'a', 'm', 'p', ';'] from rfl,
          List.mem_cons, List.not_mem_nil, or_false] at hc
         rcases hc with rfl | rfl | rfl | rfl | rfl <;> decide)
      | (simp only [show ("&lt;" : String).data = ['&', 'l', 't', ';'] from rfl,
          List.mem_cons, List.not_mem_nil, or_false] at hc
         rcases hc with rfl | rfl | rfl | rfl <;> decide)
      | (simp only [show ("&gt;" : String).data = ['&', 'g', 't', ';'] from rfl,
          List.mem_cons, List.not_mem_nil, or_false] at hc
         rcases hc with rfl | rfl | rfl | rfl <;> decide)
      | (simp only [show ("&quot;" : String).data = ['&', 'q', 'u', 'o', 't', ';'] from rfl,
          List.mem_cons, List.not_mem_nil, or_false] at hc
         rcases hc with rfl | rfl | rfl | rfl | rfl | rfl <;> decide)
      | (simp only [show ("&#13;" : String).data = ['&', '#', '1', '3', ';'] from rfl,
          List.mem_cons, List.not_mem_nil, or_false] at hc
         rcases hc with rfl | rfl | rfl | rfl | rfl <;> decide)
      | (simp only [show ("&#10;" : String).data = ['&', '#', '1', '0', ';'] from rfl,
          List.mem_cons, List.not_mem_nil, or_false] at hc
         rcases hc with rfl | rfl | rfl | rfl | rfl <;> decide)
      | (simp only [show ("&#09;" : String).data = ['&', '#', '0', '9', ';'] from rfl,
          List.mem_cons, List.not_mem_nil, or_false] at hc
         rcases hc with rfl | rfl | rfl | rfl | rfl <;> decide)
      | (simp only [List.mem_singleton] at hc; subst hc; assumption)

theorem escAttrL_no_quote (v : List Char) : ∀ c ∈ escAttrL v, ¬(c = '"') := by
  induction v with
  | nil => intro c hc; cases hc
  | cons x rest ih =>
    intro c hc
    rcases List.mem_append.mp hc with hc | hc
    · exact escChar_no_quote x c hc
    · exact ih c hc

set_option maxHeartbeats 1000000 in
theorem okAttrValue_escAttrL (v : List Char) (hv : v.all validXmlChar = true) :
    okAttrValue (escAttrL v) = true := by
  induction v with
  | nil => simp [escAttrL, okAttrValue]
  | cons x rest ih =>
    simp only [List.all_cons, Bool.and_eq_true] at hv
    obtain ⟨hx, hrest⟩ := hv
    have ih' := ih hrest
    show okAttrValue (escChar x ++ escAttrL rest) = true
    unfold escChar
    split_ifs with h1 h2 h3 h4 h5 h6 h7
    · show okAttrValue ('&' :: ('a' :: 'm' :: 'p' :: ';' :: escAttrL rest)) = true
      simp [okAttrValue, ih']
    · show okAttrValue ('&' :: ('l' :: 't' :: ';' :: escAttrL rest)) = true
      simp [okAttrValue, ih']
    · show okAttrValue ('&' :: ('g' :: 't' :: ';' :: escAttrL rest)) = true
      simp [okAttrValue, ih']
    · show okAttrValue ('&' :: ('q' :: 'u' :: 'o' :: 't' :: ';' :: escAttrL rest)) = true
      simp [okAttrValue, ih']
    · show okAttrValue ('&' :: ('#' :: '1' :: '3' :: ';' :: escAttrL rest)) = true
      simp [okAttrValue, ih']
    · show okAttrValue ('&' :: ('#' :: '1' :: '0' :: ';' :: escAttrL rest)) = true
      simp [okAttrValue, ih']
    · show okAttrValue ('&' :: ('#' :: '0' :: '9' :: ';' :: escAttrL rest)) = true
      simp [okAttrValue, ih']
    · show okAttrValue (x :: escAttrL rest) = true
      unfold okAttrValue
      rw [if_neg (by tauto), if_neg h1, if_pos hx]
      exact ih'

end Xml

namespace Xml

theorem okName_data_all (s : String) (h : okName s = true) :
    ∀ x ∈ s.data, isNameChar x = true := by
  unfold okName at h
  simp only [Bool.and_eq_true, List.all_eq_true] at h
  exact fun x hx => h.2 x hx

theorem okName_data_ne_nil (s : String) (h : okName s = true) : s.data ≠ [] := by
  unfold okName at h
  simp only [Bool.and_eq_true] at h
  intro hnil
  have h1 := h.1
  rw [hnil] at h1
  simp at h1

theorem chkAttrs_step (f : Nat) (k v : String) (Y : List Char)
    (hk : okName k = true) (hv : v.data.all validXmlChar = true) :
    chkAttrs (f + 1) (' ' :: (k.data ++ '=' :: '"' :: (escAttrL v.data ++ '"' :: Y)))
      = chkAttrs f Y := by
  have hkdata := okName_data_all k hk
  have hkne := okName_data_ne_nil k hk
  have h1 := takeWhile_append_stop isNameChar k.data '='
    ('"' :: (escAttrL v.data ++ '"' :: Y)) hkdata (by decide)
  have h2 := dropWhile_append_stop isNameChar k.data '='
    ('"' :: (escAttrL v.data ++ '"' :: Y)) hkdata (by decide)
  have h3 := takeWhile_append_stop (fun c => !(c = '"')) (escAttrL v.data) '"' Y
    (fun x hx => by simp [escAttrL_no_quote v.data x hx]) (by decide)
  have h4 := dropWhile_append_stop (fun c => !(c = '"')) (escAttrL v.data) '"' Y
    (fun x hx => by simp [escAttrL_no_quote v.data x hx]) (by decide)
  have h5 := okAttrValue_escAttrL v.data hv
  have h6 : k.data.isEmpty = false := by
    rcases hn : k.data with _ | _
    · exact absurd hn hkne
    · rfl
  simp [chkAttrs, h1, h2, h3, h4, h5, h6]

theorem chkAttrs_ser (attrs : List (String × String)) :
    ∀ f rest, attrs.length + 1 ≤ f →
      (∀ a ∈ attrs, okName a.1 = true ∧ a.2.data.all validXmlChar = true) →
      chkAttrs f (serAttrsL attrs ++ '>' :: rest) = some (false, rest)
      ∧ chkAttrs f (serAttrsL attrs ++ ' ' :: '/' :: '>' :: rest) = some (true, rest) := by
  induction attrs with
  | nil =>
    intro f rest hf _
    obtain ⟨f', rfl⟩ : ∃ f', f = f' + 1 := ⟨f - 1, by omega⟩
    constructor
    · show chkAttrs (f' + 1) ('>' :: rest) = some (false, rest)
      simp [chkAttrs]
    · show chkAttrs (f' + 1) (' ' :: '/' :: '>' :: rest) = some (true, rest)
      simp only [chkAttrs]
      rw [if_neg (by decide), if_neg (by decide)]
      simp only [if_true]
      rw [show ('/' :: '>' :: rest).takeWhile isNameChar = [] by
        simp [List.takeWhile_cons, isNameChar]]
      simp
  | cons kv attrs' ih =>
    intro f rest hf hnames
    obtain ⟨k, v⟩ := kv
    obtain ⟨f', rfl⟩ : ∃ f', f = f' + 1 := ⟨f - 1, by omega⟩
    have hk : okName k = true := (hnames (k, v) (by simp)).1
    have hkv : v.data.all validXmlChar = true := (hnames (k, v) (by simp)).2
    have hnames' : ∀ a ∈ attrs', okName a.1 = true ∧ a.2.data.all validXmlChar = true :=
      fun a ha => hnames a (by simp [ha])
    have hf' : attrs'.length + 1 ≤ f' := by
      simp only [List.length_cons] at hf
      omega
    constructor
    · have hshape : serAttrsL ((k, v) :: attrs') ++ '>' :: rest
          = ' ' :: (k.data ++ '=' :: '"' ::
              (escAttrL v.data ++ '"' :: (serAttrsL attrs' ++ '>' :: rest))) := by
        simp [serAttrsL, List.append_assoc]
      rw [hshape, chkAttrs_step f' k v _ hk hkv]
      exact (ih f' rest hf' hnames').1
    · have hshape : serAttrsL ((k, v) :: attrs') ++ ' ' :: '/' :: '>' :: rest
          = ' ' :: (k.data ++ '=' :: '"' ::
              (escAttrL v.data ++ '"' :: (serAttrsL attrs' ++ ' ' :: '/' :: '>' :: rest))) := by
        simp [serAttrsL, List.append_assoc]
      rw [hshape, chkAttrs_step f' k v _ hk hkv]
      exact (ih f' rest hf' hnames').2

end Xml

namespace Xml

theorem serAttrsL_append_shape (attrs : List (String × String)) (x : Char)
    (X : List Char) (hx : isNameChar x = false) :
    ∃ c₀ R₀, serAttrsL attrs ++ x :: X = c₀ :: R₀ ∧ isNameChar c₀ = false := by
  cases attrs with
  | nil => exact ⟨x, X, rfl, hx⟩
  | cons a t =>
    obtain ⟨k, v⟩ := a
    exact ⟨' ', _, rfl, by decide⟩

theorem isPrefixOf_append_self (l x : List Char) : l.isPrefixOf (l ++ x) = true := by
  rw [ List.isPrefixOf_iff_prefix]
  exact List.prefix_append l x

theorem sizeT_node (tag : String) (attrs : List (String × String))
    (cs : List XmlTree) : sizeT (.node tag attrs cs) = 1 + sizeS cs := by
  rw [sizeT.eq_def]

theorem sizeS_cons (c : XmlTree) (cs : List XmlTree) :
    sizeS (c :: cs) = 1 + sizeT c + sizeS cs := by
  rw [sizeS.eq_def]

theorem fuelElem_node (tag : String) (attrs : List (String × String))
    (cs : List XmlTree) :
    fuelElem (.node tag attrs cs) = 1 + max (attrs.length + 1) (fuelSeq cs) := by
  rw [fuelElem.eq_def]

theorem fuelSeq_nil : fuelSeq [] = 1 := by
  rw [fuelSeq.eq_def]

theorem fuelSeq_cons (c : XmlTree) (cs : List XmlTree) :
    fuelSeq (c :: cs) = 1 + max (fuelElem c) (fuelSeq cs) := by
  rw [fuelSeq.eq_def]

theorem chk_ser_main (n : Nat) :
    (∀ t, sizeT t ≤ n → goodTree t = true → ∀ f rest, fuelElem t ≤ f →
      chkElem f (serElemL t ++ rest) = some rest)
    ∧ (∀ cs, sizeS cs ≤ n → goodSeq cs = true → ∀ f rest, fuelSeq cs ≤ f →
      chkSeq f (serSeqL cs ++ '<' :: '/' :: rest) = some ('<' :: '/' :: rest)) := by
  induction n using Nat.strong_induction_on with
  | _ n ih =>
  constructor
  · -- elements
    rintro ⟨tag, attrs, cs⟩ hsize hgood f rest hfuel
    have hgood' : okName tag = true
        ∧ (attrs.all fun a => okName a.1 && a.2.data.all validXmlChar) = true
        ∧ goodSeq cs = true := by
      have := hgood
      unfold goodTree at this
      simp only [Bool.and_eq_true] at this
      exact ⟨this.1.1, this.1.2, this.2⟩
    obtain ⟨htag, hattrnames, hgoodcs⟩ := hgood'
    have htagdata := okName_data_all tag htag
    have htagne := okName_data_ne_nil tag htag
    have hnames : ∀ a ∈ attrs, okName a.1 = true ∧ a.2.data.all validXmlChar = true := by
      intro a ha
      have h := List.all_eq_true.mp hattrnames a ha
      simp only [Bool.and_eq_true] at h
      exact h
    have hfuel' : 1 + max (attrs.length + 1) (fuelSeq cs) ≤ f := by
      rw [← fuelElem_node tag attrs cs]
      exact hfuel
    obtain ⟨f', rfl⟩ : ∃ f', f = f' + 1 := ⟨f - 1, by omega⟩
    have hfA : attrs.length + 1 ≤ f' := by omega
    have hfS : fuelSeq cs ≤ f' := by omega
    cases cs with
    | nil =>
      have hshape : serElemL (.node tag attrs []) ++ rest
          = '<' :: (tag.data ++ (serAttrsL attrs ++ ' ' :: '/' :: '>' :: rest)) := by
        show ('<' :: (tag.data ++ serAttrsL attrs ++ [' ', '/', '>'])) ++ rest = _
        simp [List.append_assoc]
      rw [hshape]
      obtain ⟨c₀, R₀, hsplit, hc₀⟩ :=
        serAttrsL_append_shape attrs ' ' ('/' :: '>' :: rest) (by decide)
      have h1 : List.takeWhile isNameChar
          (tag.data ++ (serAttrsL attrs ++ ' ' :: '/' :: '>' :: rest)) = tag.data := by
        rw [hsplit]
        exact takeWhile_append_stop isNameChar tag.data c₀ R₀ htagdata hc₀
      have h2 : List.dropWhile isNameChar
          (tag.data ++ (serAttrsL attrs ++ ' ' :: '/' :: '>' :: rest))
          = serAttrsL attrs ++ ' ' :: '/' :: '>' :: rest := by
        rw [hsplit, dropWhile_append_stop isNameChar tag.data c₀ R₀ htagdata hc₀,
          ← hsplit]
      have hattrs := (chkAttrs_ser attrs f' rest hfA hnames).2
      have hne : tag.data.isEmpty = false := by
        rcases hn : tag.data with _ | _
        · exact absurd hn htagne
        · rfl
      simp [chkElem, h1, h2, hattrs, hne]
    | cons c cs' =>
      have hn1 : 1 ≤ n := by
        have := sizeT_node tag attrs (c :: cs')
        omega
      have hsizeS : sizeS (c :: cs') ≤ n - 1 := by
        have := sizeT_node tag attrs (c :: cs')
        omega
      have hseq := (ih (n - 1) (by omega)).2 (c :: cs') hsizeS hgoodcs f'
        (tag.data ++ '>' :: rest) hfS
      have hshape : serElemL (.node tag attrs (c :: cs')) ++ rest
          = '<' :: (tag.data ++ (serAttrsL attrs ++ '>' ::
              (serSeqL (c :: cs') ++ '<' :: '/' :: (tag.data ++ '>' :: rest)))) := by
        show ('<' :: (tag.data ++ serAttrsL attrs
            ++ '>' :: (serSeqL (c :: cs') ++ '<' :: '/' :: (tag.data ++ ['>'])))) ++ rest = _
        simp [List.append_assoc]
      rw [hshape]
      obtain ⟨c₀, R₀, hsplit, hc₀⟩ :=
        serAttrsL_append_shape attrs '>'
          (serSeqL (c :: cs') ++ '<' :: '/' :: (tag.data ++ '>' :: rest)) (by decide)
      have h1 : List.takeWhile isNameChar
          (tag.data ++ (serAttrsL attrs ++ '>' ::
            (serSeqL (c :: cs') ++ '<' :: '/' :: (tag.data ++ '>' :: rest)))) = tag.data := by
        rw [hsplit]
        exact takeWhile_append_stop isNameChar tag.data c₀ R₀ htagdata hc₀
      have h2 : List.dropWhile isNameChar
          (tag.data ++ (serAttrsL attrs ++ '>' ::
            (serSeqL (c :: cs') ++ '<' :: '/' :: (tag.data ++ '>' :: rest))))
          = serAttrsL attrs ++ '>' ::
            (serSeqL (c :: cs') ++ '<' :: '/' :: (tag.data ++ '>' :: rest)) := by
        rw [hsplit, dropWhile_append_stop isNameChar tag.data c₀ R₀ htagdata hc₀,
          ← hsplit]
      have hattrs := (chkAttrs_ser attrs f'
        (serSeqL (c :: cs') ++ '<' :: '/' :: (tag.data ++ '>' :: rest)) hfA hnames).1
      have hne : tag.data.isEmpty = false := by
        rcases hn : tag.data with _ | _
        · exact absurd hn htagne
        · rfl
      have hpre : tag.data.isPrefixOf (tag.data ++ '>' :: rest) = true :=
        isPrefixOf_append_self tag.data ('>' :: rest)
      have hdrop : (tag.data ++ '>' :: rest).drop tag.data.length = '>' :: rest :=
        List.drop_left tag.data ('>' :: rest)
      simp [chkElem, h1, h2, hattrs, hne, hseq, hpre, hdrop]
  · -- sequences
    intro cs hsize hgood f rest hfuel
    cases cs with
    | nil =>
      obtain ⟨f', rfl⟩ : ∃ f', f = f' + 1 := by
        have := fuelSeq_nil
        exact ⟨f - 1, by omega⟩
      show chkSeq (f' + 1) ('<' :: '/' :: rest) = some ('<' :: '/' :: rest)
      simp [chkSeq]
    | cons c cs' =>
      have hfuel' : 1 + max (fuelElem c) (fuelSeq cs') ≤ f := by
        have := fuelSeq_cons c cs'
        omega
      obtain ⟨f', rfl⟩ : ∃ f', f = f' + 1 := ⟨f - 1, by omega⟩
      have hfE : fuelElem c ≤ f' := by omega
      have hfS : fuelSeq cs' ≤ f' := by omega
      have hgood' : goodTree c = true ∧ goodSeq cs' = true := by
        have := hgood
        unfold goodSeq at this
        simp only [Bool.and_eq_true] at this
        exact this
      obtain ⟨hgc, hgcs'⟩ := hgood'
      have hn1 : 1 ≤ n := by
        have := sizeS_cons c cs'
        omega
      have hsizeE : sizeT c ≤ n - 1 := by
        have := sizeS_cons c cs'
        omega
      have hsizeS' : sizeS cs' ≤ n - 1 := by
        have := sizeS_cons c cs'
        omega
      have helem := (ih (n - 1) (by omega)).1 c hsizeE hgc f'
        (serSeqL cs' ++ '<' :: '/' :: rest) hfE
      have hseq' := (ih (n - 1) (by omega)).2 cs' hsizeS' hgcs' f' rest hfS
      obtain ⟨tagc, attrsc, csc⟩ := c
      have htagc : okName tagc = true := by
        have := hgc
        unfold goodTree at this
        simp only [Bool.and_eq_true] at this
        exact this.1.1
      obtain ⟨tc, tt, htc⟩ : ∃ tc tt, tagc.data = tc :: tt := by
        rcases hd : tagc.data with _ | ⟨tc, tt⟩
        · exact absurd hd (okName_data_ne_nil tagc htagc)
        · exact ⟨tc, tt, rfl⟩
      have htcname : isNameChar tc = true :=
        okName_data_all tagc htagc tc (by rw [htc]; simp)
      have htcne : ¬(tc = '/') := by
        intro h
        rw [h] at htcname
        exact absurd htcname (by decide)
      have hE : serElemL (.node tagc attrsc csc) ++ (serSeqL cs' ++ '<' :: '/' :: rest)
          = '<' :: tc :: ((match csc with
              | [] => tt ++ serAttrsL attrsc ++ [' ', '/', '>']
              | c2 :: cs2 => tt ++ serAttrsL attrsc
                  ++ '>' :: (serSeqL (c2 :: cs2) ++ '<' :: '/' :: (tagc.data ++ ['>'])))
            ++ (serSeqL cs' ++ '<' :: '/' :: rest)) := by
        cases csc with
        | nil =>
          show ('<' :: (tagc.data ++ serAttrsL attrsc ++ [' ', '/', '>'])) ++ _ = _
          rw [htc]
          simp [List.append_assoc]
        | cons c2 cs2 =>
          show ('<' :: (tagc.data ++ serAttrsL attrsc
              ++ '>' :: (serSeqL (c2 :: cs2) ++ '<' :: '/' :: (tagc.data ++ ['>'])))) ++ _ = _
          rw [htc]
          simp [List.append_assoc]
      have hgoal : serSeqL ((XmlTree.node tagc attrsc csc) :: cs') ++ '<' :: '/' :: rest
          = serElemL (.node tagc attrsc csc) ++ (serSeqL cs' ++ '<' :: '/' :: rest) := by
        show serElemL (.node tagc attrsc csc) ++ serSeqL cs' ++ '<' :: '/' :: rest = _
        simp [List.append_assoc]
      rw [hgoal, hE]
      show chkSeq (f' + 1) ('<' :: tc :: _) = _
      simp only [chkSeq, if_true]
      rw [if_neg htcne, ← hE, helem]
      exact hseq'

end Xml

namespace Xml

theorem serElemL_nil_eq (tag : String) (attrs : List (String × String)) :
    serElemL (.node tag attrs [])
      = '<' :: (tag.data ++ serAttrsL attrs ++ [' ', '/', '>']) := by
  rw [serElemL.eq_def]

theorem serElemL_cons_eq (tag : String) (attrs : List (String × String))
    (c : XmlTree) (cs : List XmlTree) :
    serElemL (.node tag attrs (c :: cs))
      = '<' :: (tag.data ++ serAttrsL attrs
          ++ '>' :: (serSeqL (c :: cs) ++ '<' :: '/' :: (tag.data ++ ['>']))) := by
  rw [serElemL.eq_def]

theorem serSeqL_nil : serSeqL [] = [] := by
  rw [serSeqL.eq_def]

theorem serSeqL_cons (c : XmlTree) (cs : List XmlTree) :
    serSeqL (c :: cs) = serElemL c ++ serSeqL cs := by
  rw [serSeqL.eq_def]

theorem goodTree_node (tag : String) (attrs : List (String × String))
    (cs : List XmlTree) :
    goodTree (.node tag attrs cs)
      = (okName tag && attrs.all (fun a => okName a.1 && a.2.data.all validXmlChar)
          && goodSeq cs) := by
  rw [goodTree.eq_def]

theorem goodSeq_nil : goodSeq [] = true := by
  rw [goodSeq.eq_def]

theorem goodSeq_cons (c : XmlTree) (cs : List XmlTree) :
    goodSeq (c :: cs) = (goodTree c && goodSeq cs) := by
  rw [goodSeq.eq_def]

theorem serAttrsL_length_ge (attrs : List (String × String)) :
    attrs.length ≤ (serAttrsL attrs).length := by
  induction attrs with
  | nil => simp [serAttrsL]
  | cons a t ih =>
    obtain ⟨k, v⟩ := a
    simp only [serAttrsL, List.length_cons, List.length_append]
    omega

theorem serElemL_length_pos (t : XmlTree) : 1 ≤ (serElemL t).length := by
  obtain ⟨tag, attrs, cs⟩ := t
  cases cs with
  | nil => rw [serElemL_nil_eq]; simp
  | cons c cs' => rw [serElemL_cons_eq]; simp

theorem fuel_le_len (n : Nat) :
    (∀ t, sizeT t ≤ n → goodTree t = true → fuelElem t ≤ (serElemL t).length)
    ∧ (∀ cs, sizeS cs ≤ n → goodSeq cs = true → fuelSeq cs ≤ (serSeqL cs).length + 1) := by
  induction n using Nat.strong_induction_on with
  | _ n ih =>
  constructor
  · rintro ⟨tag, attrs, cs⟩ hsize hgood
    rw [goodTree_node] at hgood
    simp only [Bool.and_eq_true] at hgood
    have htaglen : 1 ≤ tag.data.length := by
      have := okName_data_ne_nil tag hgood.1.1
      rcases hd : tag.data with _ | _
      · exact absurd hd this
      · simp
    have hserA := serAttrsL_length_ge attrs
    rw [fuelElem_node]
    cases cs with
    | nil =>
      rw [fuelSeq_nil, serElemL_nil_eq]
      simp only [List.length_cons, List.length_append]
      have hmax : max (attrs.length + 1) 1 ≤ tag.data.length + (serAttrsL attrs).length + 3 :=
        Nat.max_le.mpr ⟨by omega, by omega⟩
      omega
    | cons c cs' =>
      have hn1 : 1 ≤ n := by
        have := sizeT_node tag attrs (c :: cs')
        have := sizeS_cons c cs'
        omega
      have hsS : sizeS (c :: cs') ≤ n - 1 := by
        have := sizeT_node tag attrs (c :: cs')
        omega
      have hseq := (ih (n - 1) (by omega)).2 (c :: cs') hsS hgood.2
      rw [serElemL_cons_eq]
      simp only [List.length_cons, List.length_append]
      have hmax : max (attrs.length + 1) (fuelSeq (c :: cs'))
          ≤ tag.data.length + (serAttrsL attrs).length
            + (1 + ((serSeqL (c :: cs')).length + (1 + (1 + (tag.data.length + 1))))) :=
        Nat.max_le.mpr ⟨by omega, by omega⟩
      omega
  · intro cs hsize hgood
    cases cs with
    | nil =>
      rw [fuelSeq_nil, serSeqL_nil]
      simp
    | cons c cs' =>
      rw [goodSeq_cons] at hgood
      simp only [Bool.and_eq_true] at hgood
      have hn1 : 1 ≤ n := by
        have := sizeS_cons c cs'
        omega
      have hsE : sizeT c ≤ n - 1 := by
        have := sizeS_cons c cs'
        omega
      have hsS : sizeS cs' ≤ n - 1 := by
        have := sizeS_cons c cs'
        omega
      have helem := (ih (n - 1) (by omega)).1 c hsE hgood.1
      have hseq := (ih (n - 1) (by omega)).2 cs' hsS hgood.2
      have hpos := serElemL_length_pos c
      rw [fuelSeq_cons, serSeqL_cons]
      simp only [List.length_append]
      have hmax : max (fuelElem c) (fuelSeq cs')
          ≤ (serElemL c).length + (serSeqL cs').length :=
        Nat.max_le.mpr ⟨by omega, by omega⟩
      omega

theorem fromstring_ok_tostring (t : XmlTree) (h : goodTree t = true) :
    fromstring_ok (tostring t) = true := by
  have hfuel : fuelElem t ≤ (serElemL t).length + 1 := by
    have := (fuel_le_len (sizeT t)).1 t le_rfl h
    omega
  have hrt := (chk_ser_main (sizeT t)).1 t le_rfl h ((serElemL t).length + 1) [] hfuel
  rw [List.append_nil] at hrt
  show (match chkElem ((tostring t).length + 1) (tostring t).data with
    | some [] => true
    | _ => false) = true
  have hdata : (tostring t).data = serElemL t := rfl
  have hlen : (tostring t).length = (serElemL t).length := rfl
  rw [hdata, hlen, hrt]

end Xml

theorem goodSeq_append (l₁ l₂ : List XmlTree) :
    Xml.goodSeq (l₁ ++ l₂) = (Xml.goodSeq l₁ && Xml.goodSeq l₂) := by
  induction l₁ with
  | nil => simp [Xml.goodSeq_nil]
  | cons c t ih =>
    simp [Xml.goodSeq_cons, ih, Bool.and_assoc]

theorem goodSeq_of_forall (cs : List XmlTree)
    (h : ∀ c ∈ cs, Xml.goodTree c = true) : Xml.goodSeq cs = true := by
  induction cs with
  | nil => exact Xml.goodSeq_nil
  | cons c t ih =>
    rw [Xml.goodSeq_cons]
    simp only [Bool.and_eq_true]
    exact ⟨h c (by simp), ih (fun x hx => h x (by simp [hx]))⟩

theorem validXmlChar_digitChar (n : Nat) : Xml.validXmlChar (Nat.digitChar n) = true := by
  match n with
  | 0 | 1 | 2 | 3 | 4 | 5 | 6 | 7 | 8 | 9 | 10 | 11 | 12 | 13 | 14 | 15 => decide
  | n + 16 =>
    unfold Nat.digitChar
    iterate 16 rw [if_neg (by omega)]
    decide

theorem toDigitsCore_validXml (b : Nat) (fuel : Nat) :
    ∀ (n : Nat) (acc : List Char), acc.all Xml.validXmlChar = true →
      (Nat.toDigitsCore b fuel n acc).all Xml.validXmlChar = true := by
  induction fuel with
  | zero =>
    intro n acc h
    simpa [Nat.toDigitsCore] using h
  | succ f ih =>
    intro n acc h
    simp only [Nat.toDigitsCore]
    split
    · simp [List.all_cons, validXmlChar_digitChar, h]
    · exact ih _ _ (by simp [List.all_cons, validXmlChar_digitChar, h])

theorem natRepr_validXml (n : Nat) :
    (toString n).data.all Xml.validXmlChar = true := by
  show (Nat.repr n).data.all Xml.validXmlChar = true
  unfold Nat.repr
  show (Nat.toDigits 10 n).all Xml.validXmlChar = true
  unfold Nat.toDigits
  exact toDigitsCore_validXml 10 (n + 1) n [] rfl

theorem validXml_string_append (s t : String)
    (hs : s.data.all Xml.validXmlChar = true)
    (ht : t.data.all Xml.validXmlChar = true) :
    (s ++ t).data.all Xml.validXmlChar = true := by
  rw [String.data_append, List.all_append, hs, ht]
  rfl

theorem compCellId_validXml (idx : Nat) :
    (DrawioGenerator.compCellId idx).data.all Xml.validXmlChar = true := by
  unfold DrawioGenerator.compCellId
  exact validXml_string_append _ _ (by decide) (natRepr_validXml _)

theorem compStyle_validXml (t : String) :
    (DrawioGenerator.compStyle t).data.all Xml.validXmlChar = true := by
  unfold DrawioGenerator.compStyle
  split_ifs <;> decide

theorem lookup_mem_value {α : Type} (l : List (String × α)) (k : String) (v : α) :
    l.lookup k = some v → (k, v) ∈ l := by
  induction l with
  | nil => intro h; simp [List.lookup] at h
  | cons a t ih =>
    intro h
    obtain ⟨k', v'⟩ := a
    simp only [List.lookup] at h
    split at h
    · rename_i heq
      simp only [Option.some.injEq] at h
      subst h
      have hk : k = k' := eq_of_beq heq
      subst hk
      exact List.mem_cons_self _ _
    · exact List.mem_cons_of_mem _ (ih h)

theorem pyDictGet_mem_value {α : Type} (m : List (String × α)) (k : String) (v : α)
    (h : pyDictGet m k = some v) : (k, v) ∈ m := by
  unfold pyDictGet at h
  exact List.mem_reverse.mp (lookup_mem_value _ _ _ h)

theorem goodTree_compCell (idx : Nat) (comp : ArchitectureEntity)
    (hname : comp.name.data.all Xml.validXmlChar = true) :
    Xml.goodTree (DrawioGenerator.compCell idx comp) = true := by
  unfold DrawioGenerator.compCell
  simp only [Xml.goodTree_node, Xml.goodSeq_cons, Xml.goodSeq_nil, List.all_cons,
    List.all_nil, Bool.and_eq_true, Bool.and_true, Bool.true_and]
  repeat' apply And.intro
  all_goals first
    | decide
    | exact hname
    | exact compCellId_validXml idx
    | exact compStyle_validXml comp.type
    | exact natRepr_validXml _

theorem goodSeq_edgeCells (cmap : List (String × String))
    (hvals : ∀ a ∈ cmap, a.2.data.all Xml.validXmlChar = true) :
    ∀ (rels : List ArchitectureRelationship),
      (∀ r ∈ rels,
        (pyOr r.label r.relationship_type).data.all Xml.validXmlChar = true) →
      ∀ k, Xml.goodSeq (DrawioGenerator.edgeCells cmap rels k) = true := by
  intro rels
  induction rels with
  | nil => intro _ k; exact Xml.goodSeq_nil
  | cons r rest ih =>
    intro hrels k
    have hr := hrels r (by simp)
    have hrest : ∀ r' ∈ rest,
        (pyOr r'.label r'.relationship_type).data.all Xml.validXmlChar = true :=
      fun r' h' => hrels r' (by simp [h'])
    unfold DrawioGenerator.edgeCells
    rcases hs : pyDictGet cmap r.source with _ | s <;>
      rcases ht : pyDictGet cmap r.target with _ | t <;>
      simp only [ih hrest]
    have hsv : s.data.all Xml.validXmlChar = true :=
      hvals (r.source, s) (pyDictGet_mem_value cmap r.source s hs)
    have htv : t.data.all Xml.validXmlChar = true :=
      hvals (r.target, t) (pyDictGet_mem_value cmap r.target t ht)
    simp only [Xml.goodSeq_cons, Xml.goodTree_node, Xml.goodSeq_nil, List.all_cons,
      List.all_nil, Bool.and_eq_true, Bool.and_true, Bool.true_and]
    refine ⟨?_, ih hrest (k + 1)⟩
    repeat' apply And.intro
    all_goals first
      | decide
      | exact validXml_string_append _ _ (by decide) (natRepr_validXml _)
      | exact hr
      | exact hsv
      | exact htv

theorem mem_enum_snd {α : Type} (l : List α) (p : ℕ × α) (h : p ∈ l.enum) :
    p.2 ∈ l := by
  obtain ⟨i, x⟩ := p
  rw [List.enum_eq_zip_range] at h
  exact (List.of_mem_zip h).2

theorem componentMap_values_validXml (comps : List ArchitectureEntity) :
    ∀ a ∈ DrawioGenerator.componentMap comps,
      a.2.data.all Xml.validXmlChar = true := by
  intro a ha
  unfold DrawioGenerator.componentMap at ha
  rcases List.mem_map.mp ha with ⟨p, _, rfl⟩
  exact compCellId_validXml p.1

theorem goodTree_fallback (architecture : ArchitectureExtraction)
    (hsafe : DrawioGenerator.xmlSafeArch architecture = true) :
    Xml.goodTree (DrawioGenerator.generate_fallback_tree architecture) = true := by
  unfold DrawioGenerator.xmlSafeArch at hsafe
  simp only [Bool.and_eq_true, List.all_eq_true] at hsafe
  obtain ⟨hcomps, hrels⟩ := hsafe
  unfold DrawioGenerator.generate_fallback_tree
  simp only [Xml.goodTree_node, Xml.goodSeq_cons, Xml.goodSeq_nil, goodSeq_append,
    List.all_cons, List.all_nil, Bool.and_eq_true, Bool.and_true, Bool.true_and]
  repeat' apply And.intro
  all_goals
    first
      | decide
      | (apply goodSeq_of_forall
         intro c hc
         rcases List.mem_map.mp hc with ⟨p, hp, rfl⟩
         exact goodTree_compCell p.1 p.2
           (hcomps p.2 (mem_enum_snd architecture.components p hp)))
      | (exact goodSeq_edgeCells _
          (componentMap_values_validXml architecture.components)
          architecture.relationships hrels _)

set_option maxRecDepth 8000 in
set_option maxHeartbeats 1600000 in
/-- Claim C6, counterexample: the claim is universal over every
ArchitectureExtraction, but a component whose name contains the C0 control
character U+0001 refutes the Draw.io half: `_escape_attrib` passes the
character through raw into the `value` attribute, and `ET.fromstring`
rejects it as not well-formed XML, so the fallback output fails
`validate_drawio_xml`. -/
theorem claim_C6_counterexample :
    DrawioGenerator.validate_drawio_xml
      (DrawioGenerator.generate_fallback_diagram
        ⟨[⟨"service", "A\x01", []⟩], [], ""⟩) = false := by
  have htree : DrawioGenerator.generate_fallback_tree
      ⟨[⟨"service", "A\x01", []⟩], [], ""⟩
      = .node "mxfile"
          [("host", "app.diagrams.net"), ("modified", "2024-01-01T00:00:00.000Z"),
           ("agent", "AI"), ("version", "22.0.0")]
          [.node "diagram" [("name", "Architecture"), ("id", "diagram1")]
            [.node "mxGraphModel"
              [("dx", "1422"), ("dy", "794"), ("grid", "1"), ("gridSize", "10"),
               ("guides", "1")]
              [.node "root" []
                [.node "mxCell" [("id", "0")] [],
                 .node "mxCell" [("id", "1"), ("parent", "0")] [],
                 .node "mxCell"
                   [("id", "comp_2"), ("value", "A\x01"),
                    ("style", "rounded=1;whiteSpace=wrap;html=1;fillColor=#d5e8d4;strokeColor=#82b366;"),
                    ("vertex", "1"), ("parent", "1")]
                   [.node "mxGeometry"
                     [("x", "100"), ("y", "100"), ("width", "120"),
                      ("height", "60"), ("as", "geometry")] []]]]]] := rfl
  have hser : DrawioGenerator.generate_fallback_diagram
      ⟨[⟨"service", "A\x01", []⟩], [], ""⟩
      = "<mxfile host=\"app.diagrams.net\" modified=\"2024-01-01T00:00:00.000Z\" agent=\"AI\" version=\"22.0.0\"><diagram name=\"Architecture\" id=\"diagram1\"><mxGraphModel dx=\"1422\" dy=\"794\" grid=\"1\" gridSize=\"10\" guides=\"1\"><root><mxCell id=\"0\" /><mxCell id=\"1\" parent=\"0\" /><mxCell id=\"comp_2\" value=\"A\x01\" style=\"rounded=1;whiteSpace=wrap;html=1;fillColor=#d5e8d4;strokeColor=#82b366;\" vertex=\"1\" parent=\"1\"><mxGeometry x=\"100\" y=\"100\" width=\"120\" height=\"60\" as=\"geometry\" /></mxCell></root></mxGraphModel></diagram></mxfile>" := by
    show Xml.tostring (DrawioGenerator.generate_fallback_tree
      ⟨[⟨"service", "A\x01", []⟩], [], ""⟩) = _
    rw [htree]
    show String.mk (Xml.serElemL _) = _
    simp only [Xml.serElemL_cons_eq, Xml.serElemL_nil_eq, Xml.serSeqL_cons,
      Xml.serSeqL_nil]
    decide
  rw [hser]
  decide

/-- Claim C6, amended: the PlantUML fallback always passes
`validate_plantuml` (after stripping it is non-empty and carries the
@startuml/@enduml markers); the Draw.io fallback passes
`validate_drawio_xml` whenever the architecture-supplied strings that
reach attribute values — component names and relationship labels/types —
consist of valid XML characters.  (Without that condition the raw control
characters survive escaping and `ET.fromstring` rejects the output; see
the counterexample.) -/
theorem claim_C6_amended (architecture : ArchitectureExtraction) :
    PlantUMLGenerator.validate_plantuml
        (PlantUMLGenerator.generate_fallback_diagram architecture) = true
    ∧ (DrawioGenerator.xmlSafeArch architecture = true →
        DrawioGenerator.validate_drawio_xml
          (DrawioGenerator.generate_fallback_diagram architecture) = true) := by
  refine ⟨validate_plantuml_fallback architecture, fun hsafe => ?_⟩
  unfold DrawioGenerator.validate_drawio_xml DrawioGenerator.generate_fallback_diagram
  exact Xml.fromstring_ok_tostring _ (goodTree_fallback architecture hsafe)

/-- Witness for the amended C6: a concrete two-component architecture with
one relationship is XML-safe, and both fallback outputs pass their
validity checks. -/
theorem claim_C6_amended_witness :
    PlantUMLGenerator.validate_plantuml
        (PlantUMLGenerator.generate_fallback_diagram
          ⟨[⟨"service", "API", []⟩, ⟨"database", "DB", []⟩],
           [⟨"API", "DB", "storage", none⟩], "ctx"⟩) = true
    ∧ DrawioGenerator.validate_drawio_xml
        (DrawioGenerator.generate_fallback_diagram
          ⟨[⟨"service", "API", []⟩, ⟨"database", "DB", []⟩],
           [⟨"API", "DB", "storage", none⟩], "ctx"⟩) = true :=
  ⟨(claim_C6_amended
      ⟨[⟨"service", "API", []⟩, ⟨"database", "DB", []⟩],
       [⟨"API", "DB", "storage", none⟩], "ctx"⟩).1,
   (claim_C6_amended
      ⟨[⟨"service", "API", []⟩, ⟨"database", "DB", []⟩],
       [⟨"API", "DB", "storage", none⟩], "ctx"⟩).2 (by decide)⟩
